import Mathlib

/-!
Shallow embedding of the job-orchestration engine of the
sample-smart-prescription-reader repository.

The workflow is an AWS Step Functions state machine declared in
src/packages/infra/src/constructs/workflow/smartPrescriptionReaderWorkflow.ts.
We embed it as a deterministic small-step interpreter over a configuration
holding the current state, the JSONata workflow variables, and the ordered
list of JobStore writes (the payloads sent to the UpdateJobStatus lambda).
External stage results (lambda payload outputs) and invocation failures are
supplied by an oracle; a failed invocation is one whose retries are already
exhausted, it appends no write and runs no assignments, and control moves to
the attached catch (CatchHandler), as in the source wiring.

The getJobStatus AppSync resolver (src/unnamed/part_011) is embedded
separately as a pure function.
-/

namespace SmartPrescriptionReader

/-- Job status values written by the workflow. -/
inductive Status where
  | QUEUED
  | PROCESSING
  | COMPLETED
  | FAILED
deriving DecidableEq, Repr

/-- Pipeline state values written while status is PROCESSING. -/
inductive JobState where
  | TRANSCRIBE
  | EXTRACT
  | JUDGE
  | CORRECT
deriving DecidableEq, Repr

/-- The states of the Step Functions state machine, one per construct in the
source (Pass, Choice, LambdaInvoke, Succeed, Fail), plus `aborted` for an
execution killed by an uncaught error of UpdateStatusFailed, which has
retries but no catch. -/
inductive SMState where
  | storeInputs
  | shouldOcr
  | updateStatusOcr
  | ocrPrescription
  | updateStatusProcessing
  | extractPrescription
  | isPrescriptionChoice
  | updateStatusJudge
  | evaluateResponse
  | shouldCorrectChoice
  | updateStatusCorrect
  | correctResponse
  | updateStatusCompleted
  | catchHandler
  | updateStatusFailed
  | success
  | failState
  | aborted
deriving DecidableEq, Repr

/-- A per-invocation usage record (token counts). -/
structure Usage where
  inputTokens : Nat
  outputTokens : Nat
  cachedTokens : Nat
deriving DecidableEq, Repr

/-- The error object of the UpdateStatusFailed payload, built from the
errorMessage and errorCode workflow variables. -/
structure ErrorInfo where
  message : Option String
  code : Option String
deriving DecidableEq, Repr

/-- One payload sent to the UpdateJobStatus lambda (one JobStore write).
Fields absent from a given payload in the source are `none` / `[]` here. -/
structure JobWrite where
  jobId : String
  status : Status
  state : Option JobState
  usage : List (Option Usage)
  score : Option String
  prescriptionData : Option String
  message : Option String
  error : Option ErrorInfo
deriving DecidableEq, Repr

/-- The JSONata workflow variables assigned by the states. Variables that do
not exist yet are modelled by their initial value (`none` for the optional
ones; the string and boolean variables are only read after assignment on the
paths the machine takes). -/
structure Vars where
  jobId : String
  image : String
  prescriptionSchema : String
  useTextract : Bool
  correctionCount : Int
  maxCorrections : Int
  ocrText : Option String
  isPrescriptionV : Bool
  isHandwritten : Bool
  extraction : String
  usage : Option Usage
  score : String
  feedback : String
  shouldCorrectV : Bool
  errorCode : Option String
  errorMessage : Option String
deriving DecidableEq, Repr

/-- Payload of a successful ExtractPrescription invocation. -/
structure ExtractOutput where
  isPrescriptionO : Bool
  isHandwritten : Bool
  extraction : String
  usage : Usage
deriving DecidableEq, Repr

/-- Payload of a successful EvaluateResponse invocation. -/
structure EvalOutput where
  score : String
  feedback : String
  usage : Usage
deriving DecidableEq, Repr

/-- Payload of a successful CorrectResponse invocation. -/
structure CorrectOutput where
  extraction : String
  usage : Usage
deriving DecidableEq, Repr

/-- The execution input (the fields of the StoreInputs assignments; optional
input fields are defaulted there exactly as the JSONata expressions do). -/
structure JobInput where
  jobId : String
  image : String
  prescriptionSchema : String
  useTextract : Option Bool
  maxCorrections : Option Int
deriving DecidableEq, Repr

/-- The environment of one execution: the input, the deployment default for
maxCorrections (props.maxCorrections baked into the template), the payloads
the external lambdas would return, indexed by invocation number for the
looping stages, and a fault model: `failAt k` says the task invocation
performed at global step counter `k` exhausts its retries and errors. -/
structure Oracle where
  input : JobInput
  propsMaxCorrections : Int
  ocrText : String
  extractOut : ExtractOutput
  evalOut : Nat → EvalOutput
  correctOut : Nat → CorrectOutput
  failAt : Nat → Bool

/-- A configuration of the interpreter: current state, workflow variables,
the ordered JobStore writes so far, the global step counter, and the number
of EvaluateResponse / CorrectResponse invocations dispatched so far (these
also index the oracle outputs). -/
structure Config where
  current : SMState
  vars : Vars
  writes : List JobWrite
  stepCount : Nat
  nEval : Nat
  nCorrect : Nat
deriving Repr

/-- Initial workflow variables, before StoreInputs runs. -/
def initVars : Vars :=
  { jobId := "", image := "", prescriptionSchema := "", useTextract := true,
    correctionCount := 0, maxCorrections := 0, ocrText := none,
    isPrescriptionV := false, isHandwritten := false, extraction := "",
    usage := none, score := "", feedback := "", shouldCorrectV := false,
    errorCode := none, errorMessage := none }

/-- Initial configuration of an execution. -/
def initConfig : Config :=
  { current := .storeInputs, vars := initVars, writes := [], stepCount := 0,
    nEval := 0, nCorrect := 0 }

/-- Scores are uppercased with the JSONata $uppercase function before the
comparison with POOR and FAIR; mapping Char.toUpper over the characters is
its ASCII behaviour. -/
def upScore (s : String) : String := String.mk (s.data.map Char.toUpper)

/-- The usage payload of UpdateStatusFailed:
$exists($usage) and $usage != null ? [$usage] : []. -/
def failedUsagePayload (u : Option Usage) : List (Option Usage) :=
  match u with
  | some v => [some v]
  | none => []

/-- One step of the state machine. Lambda-task states consult
`o.failAt c.stepCount`: on failure no payload is delivered and no assign
runs, control moves to the catch target (CatchHandler), except for
UpdateStatusFailed whose uncaught failure aborts the execution. Pass and
Choice states only assign and branch. Terminal states are absorbing. -/
def step (o : Oracle) (c : Config) : Config :=
  let fails := o.failAt c.stepCount
  let n := c.stepCount + 1
  let v := c.vars
  match c.current with
  | .storeInputs =>
      { c with
        current := .shouldOcr, stepCount := n,
        vars := { v with
          jobId := o.input.jobId
          image := o.input.image
          prescriptionSchema := o.input.prescriptionSchema
          useTextract := o.input.useTextract.getD true
          correctionCount := 0
          maxCorrections := o.input.maxCorrections.getD o.propsMaxCorrections } }
  | .shouldOcr =>
      { c with
        current := (if v.useTextract then .updateStatusOcr else .updateStatusProcessing),
        stepCount := n }
  | .updateStatusOcr =>
      if fails then { c with current := .catchHandler, stepCount := n }
      else
        let w : JobWrite :=
          { jobId := v.jobId, status := .PROCESSING,
            state := some .TRANSCRIBE, usage := [], score := none,
            prescriptionData := none, message := none, error := none }
        { c with
          current := .ocrPrescription, stepCount := n,
          writes := c.writes ++ [w] }
  | .ocrPrescription =>
      if fails then { c with current := .catchHandler, stepCount := n }
      else
        { c with
          current := .updateStatusProcessing, stepCount := n,
          vars := { v with ocrText := some o.ocrText } }
  | .updateStatusProcessing =>
      if fails then { c with current := .catchHandler, stepCount := n }
      else
        let w : JobWrite :=
          { jobId := v.jobId, status := .PROCESSING,
            state := some .EXTRACT, usage := [], score := none,
            prescriptionData := none, message := none, error := none }
        { c with
          current := .extractPrescription, stepCount := n,
          vars := { v with usage := none },
          writes := c.writes ++ [w] }
  | .extractPrescription =>
      if fails then { c with current := .catchHandler, stepCount := n }
      else
        { c with
          current := .isPrescriptionChoice, stepCount := n,
          vars := { v with
            isHandwritten := o.extractOut.isHandwritten
            isPrescriptionV := o.extractOut.isPrescriptionO
            extraction := o.extractOut.extraction
            usage := some o.extractOut.usage } }
  | .isPrescriptionChoice =>
      { c with
        current := (if v.isPrescriptionV then .updateStatusJudge else .updateStatusFailed),
        stepCount := n,
        vars := { v with
          errorCode := if v.isPrescriptionV then none else some "InvalidImage"
          errorMessage := if v.isPrescriptionV then none
            else some "The image does not contain a prescription." } }
  | .updateStatusJudge =>
      if fails then { c with current := .catchHandler, stepCount := n }
      else
        let w : JobWrite :=
          { jobId := v.jobId, status := .PROCESSING,
            state := some .JUDGE, usage := [v.usage], score := none,
            prescriptionData := none, message := none, error := none }
        { c with
          current := .evaluateResponse, stepCount := n,
          vars := { v with usage := none },
          writes := c.writes ++ [w] }
  | .evaluateResponse =>
      if fails then
        { c with current := .catchHandler, stepCount := n, nEval := c.nEval + 1 }
      else
        let e := o.evalOut c.nEval
        { c with
          current := .shouldCorrectChoice, stepCount := n, nEval := c.nEval + 1,
          vars := { v with
            score := upScore e.score
            feedback := e.feedback
            usage := some e.usage
            shouldCorrectV :=
              (upScore e.score = "POOR" ∨ upScore e.score = "FAIR")
                ∧ v.correctionCount < v.maxCorrections } }
  | .shouldCorrectChoice =>
      { c with
        current := (if v.shouldCorrectV then .updateStatusCorrect else .updateStatusCompleted),
        stepCount := n }
  | .updateStatusCorrect =>
      if fails then { c with current := .catchHandler, stepCount := n }
      else
        let w : JobWrite :=
          { jobId := v.jobId, status := .PROCESSING,
            state := some .CORRECT, usage := [v.usage], score := some v.score,
            prescriptionData := none, message := none, error := none }
        { c with
          current := .correctResponse, stepCount := n,
          vars := { v with usage := none, correctionCount := v.correctionCount + 1 },
          writes := c.writes ++ [w] }
  | .correctResponse =>
      if fails then
        { c with current := .catchHandler, stepCount := n, nCorrect := c.nCorrect + 1 }
      else
        let r := o.correctOut c.nCorrect
        { c with
          current := .updateStatusJudge, stepCount := n, nCorrect := c.nCorrect + 1,
          vars := { v with extraction := r.extraction, usage := some r.usage } }
  | .updateStatusCompleted =>
      if fails then { c with current := .catchHandler, stepCount := n }
      else
        let w : JobWrite :=
          { jobId := v.jobId, status := .COMPLETED,
            state := none, usage := [v.usage], score := some v.score,
            prescriptionData := some v.extraction, message := some v.feedback,
            error := none }
        { c with
          current := .success, stepCount := n,
          vars := { v with usage := none },
          writes := c.writes ++ [w] }
  | .catchHandler =>
      { c with
        current := .updateStatusFailed, stepCount := n,
        vars := { v with
          errorMessage := some "Internal error"
          errorCode := some "InternalError" } }
  | .updateStatusFailed =>
      if fails then { c with current := .aborted, stepCount := n }
      else
        let w : JobWrite :=
          { jobId := v.jobId, status := .FAILED,
            state := none, usage := failedUsagePayload v.usage, score := none,
            prescriptionData := none, message := none,
            error := some { message := v.errorMessage, code := v.errorCode } }
        { c with
          current := .failState, stepCount := n,
          writes := c.writes ++ [w] }
  | .success => c
  | .failState => c
  | .aborted => c

/-- Run the machine for `n` steps. -/
def run (o : Oracle) : Nat → Config → Config
  | 0, c => c
  | n + 1, c => run o n (step o c)

/-- The maxCorrections value the execution resolves at StoreInputs. -/
def resolvedMaxCorrections (o : Oracle) : Int :=
  o.input.maxCorrections.getD o.propsMaxCorrections

/-- A write is terminal when its status is COMPLETED or FAILED. -/
def isTerminalWrite (w : JobWrite) : Bool :=
  w.status = Status.COMPLETED ∨ w.status = Status.FAILED

/-- The terminal writes of a configuration. -/
def terminalWrites (c : Config) : List JobWrite :=
  c.writes.filter isTerminalWrite

/-- The writes with a given pipeline state value. -/
def countStateWrites (s : JobState) (c : Config) : Nat :=
  (c.writes.filter fun w => w.state = some s).length

/-- The position of a write in the transition-graph order of the spec:
TRANSCRIBE before EXTRACT before the JUDGE and CORRECT loop (one level, the
loop moves inside it) before the terminals. -/
def writeRank (w : JobWrite) : Nat :=
  match w.status, w.state with
  | .COMPLETED, _ => 3
  | .FAILED, _ => 3
  | _, some .TRANSCRIBE => 0
  | _, some .EXTRACT => 1
  | _, some .JUDGE => 2
  | _, some .CORRECT => 2
  | _, none => 0

/-- A lower bound on the rank of every write the machine can still produce
from a given state; non-decreasing along every transition of the wiring. -/
def stateFloor : SMState → Nat
  | .storeInputs => 0
  | .shouldOcr => 0
  | .updateStatusOcr => 0
  | .ocrPrescription => 1
  | .updateStatusProcessing => 1
  | .extractPrescription => 2
  | .isPrescriptionChoice => 2
  | .updateStatusJudge => 2
  | .evaluateResponse => 2
  | .shouldCorrectChoice => 2
  | .updateStatusCorrect => 2
  | .correctResponse => 2
  | .updateStatusCompleted => 3
  | .catchHandler => 3
  | .updateStatusFailed => 3
  | .success => 3
  | .failState => 3
  | .aborted => 3

/-- The states on the judge side of the IsPrescription choice: reachable only
after the choice took its true branch. -/
def judgeSide : SMState → Bool
  | .updateStatusJudge => true
  | .evaluateResponse => true
  | .shouldCorrectChoice => true
  | .updateStatusCorrect => true
  | .correctResponse => true
  | .updateStatusCompleted => true
  | .success => true
  | _ => false

/-- The states at which the usage workflow variable is always null: before any
stage produced usage, or right after an update state wrote and reset it. -/
def pendingNoneState : SMState → Bool
  | .storeInputs => true
  | .shouldOcr => true
  | .updateStatusOcr => true
  | .ocrPrescription => true
  | .updateStatusProcessing => true
  | .extractPrescription => true
  | .evaluateResponse => true
  | .correctResponse => true
  | _ => false

/-- The states from which no TRANSCRIBE write has been made yet. -/
def preOcrState : SMState → Bool
  | .storeInputs => true
  | .shouldOcr => true
  | .updateStatusOcr => true
  | _ => false

/-- The states from which no EXTRACT write has been made yet. -/
def preExtractState : SMState → Bool
  | .storeInputs => true
  | .shouldOcr => true
  | .updateStatusOcr => true
  | .ocrPrescription => true
  | .updateStatusProcessing => true
  | _ => false

/-- The lambda-task states that carry addCatch(catchHandler): every stage and
every status update except UpdateStatusFailed, which retries but has no
catch. -/
def hasCatchToFailure : SMState → Bool
  | .updateStatusOcr => true
  | .ocrPrescription => true
  | .updateStatusProcessing => true
  | .extractPrescription => true
  | .updateStatusJudge => true
  | .evaluateResponse => true
  | .updateStatusCorrect => true
  | .correctResponse => true
  | .updateStatusCompleted => true
  | _ => false

/-- The inductive invariant of the state machine, preserved by `step` from
`initConfig`, with or without invocation failures. -/
structure MachineInv (o : Oracle) (c : Config) : Prop where
  atStart : c.current = .storeInputs → c = initConfig
  ccNonneg : 0 ≤ c.vars.correctionCount
  ccLe : c.vars.correctionCount ≤ max 0 c.vars.maxCorrections
  mcRes : c.current ≠ .storeInputs → c.vars.maxCorrections = resolvedMaxCorrections o
  guardChoice : c.current = .shouldCorrectChoice → c.vars.shouldCorrectV = true →
    c.vars.correctionCount < c.vars.maxCorrections
  guardCorrect : c.current = .updateStatusCorrect →
    c.vars.correctionCount < c.vars.maxCorrections
  nCorrectLe : (c.nCorrect : Int) + (if c.current = .correctResponse then 1 else 0) ≤
    c.vars.correctionCount
  prescGate : judgeSide c.current = true → c.vars.isPrescriptionV = true
  prescSrc : c.vars.isPrescriptionV = true → o.extractOut.isPrescriptionO = true
  noJudgeEval : o.extractOut.isPrescriptionO = false → c.nEval = 0
  noJudgeCorrect : o.extractOut.isPrescriptionO = false → c.nCorrect = 0
  termEmpty : c.current ≠ .success → c.current ≠ .failState → terminalWrites c = []
  termOne : c.current = .success ∨ c.current = .failState → (terminalWrites c).length = 1
  rankSorted : List.Pairwise (fun a b => writeRank a ≤ writeRank b) c.writes
  rankFloor : ∀ w ∈ c.writes, writeRank w ≤ stateFloor c.current
  dropLastNonTerm : ∀ w ∈ c.writes.dropLast, isTerminalWrite w = false
  transcribeZero : preOcrState c.current = true → countStateWrites .TRANSCRIBE c = 0
  transcribeOnce : countStateWrites .TRANSCRIBE c ≤ 1
  extractZero : preExtractState c.current = true → countStateWrites .EXTRACT c = 0
  extractOnce : countStateWrites .EXTRACT c ≤ 1
  correctWrites : (countStateWrites .CORRECT c : Int) = c.vars.correctionCount
  pendingNone : pendingNoneState c.current = true → c.vars.usage = none

/-- The usage entries of all writes so far, in write order. -/
def writtenUsages (c : Config) : List (Option Usage) :=
  (c.writes.map JobWrite.usage).flatten

/-- A nullable usage value as the list the payloads build from it. -/
def optUsageList : Option Usage → List (Option Usage)
  | some u => [some u]
  | none => []

/-- The usage of one full evaluate-correct cycle of the loop. -/
def fullCycleUsage (o : Oracle) (i : Nat) : List (Option Usage) :=
  [some (o.evalOut i).usage, some (o.correctOut i).usage]

/-- The usage produced by k evaluations and j corrections, j ≤ k ≤ j + 1, in
invocation order. -/
def ecSeq (o : Oracle) (k j : Nat) : List (Option Usage) :=
  ((List.range j).map (fullCycleUsage o)).flatten ++
    (if j < k then [some (o.evalOut j).usage] else [])

/-- The states at or after which the Extract stage has delivered its result. -/
def extractDone : SMState → Bool
  | .storeInputs => false
  | .shouldOcr => false
  | .updateStatusOcr => false
  | .ocrPrescription => false
  | .updateStatusProcessing => false
  | .extractPrescription => false
  | _ => true

/-- Every model-invocation usage the execution has consumed so far, in
invocation order. -/
def expectedUsage (o : Oracle) (c : Config) : List (Option Usage) :=
  (if extractDone c.current then [some o.extractOut.usage] else []) ++
    ecSeq o c.nEval c.nCorrect

/-- How the two loop counters relate at each state on fault-free paths. -/
def counterRel (c : Config) : Prop :=
  match c.current with
  | .storeInputs => c.nEval = 0 ∧ c.nCorrect = 0
  | .shouldOcr => c.nEval = 0 ∧ c.nCorrect = 0
  | .updateStatusOcr => c.nEval = 0 ∧ c.nCorrect = 0
  | .ocrPrescription => c.nEval = 0 ∧ c.nCorrect = 0
  | .updateStatusProcessing => c.nEval = 0 ∧ c.nCorrect = 0
  | .extractPrescription => c.nEval = 0 ∧ c.nCorrect = 0
  | .isPrescriptionChoice => c.nEval = 0 ∧ c.nCorrect = 0
  | .updateStatusJudge => c.nEval = c.nCorrect
  | .evaluateResponse => c.nEval = c.nCorrect
  | .shouldCorrectChoice => c.nEval = c.nCorrect + 1
  | .updateStatusCorrect => c.nEval = c.nCorrect + 1
  | .correctResponse => c.nEval = c.nCorrect + 1
  | .updateStatusCompleted => c.nEval = c.nCorrect + 1
  | .success => c.nEval = c.nCorrect + 1
  | .updateStatusFailed => c.nEval = 0 ∧ c.nCorrect = 0
  | .failState => c.nEval = 0 ∧ c.nCorrect = 0
  | .catchHandler => False
  | .aborted => False

/-- States at which the pending usage variable always holds a value. -/
def pendingSomeState : SMState → Bool
  | .isPrescriptionChoice => true
  | .updateStatusJudge => true
  | .shouldCorrectChoice => true
  | .updateStatusCorrect => true
  | .updateStatusCompleted => true
  | _ => false

/-- The usage-accounting invariant of fault-free executions: the usage
entries written plus the pending one are exactly the stage outputs consumed
so far, each once, in order. -/
def UsageInv (o : Oracle) (c : Config) : Prop :=
  counterRel c
  ∧ (pendingSomeState c.current = true → c.vars.usage.isSome = true)
  ∧ writtenUsages c ++
      (if c.current = .failState then [] else optUsageList c.vars.usage) =
    expectedUsage o c

/-- One addRetry declaration: error matchers, attempt ceiling, and the
backoff fields when the call specifies them (interval and maxDelay in
seconds). -/
structure RetryProps where
  errors : List String
  maxAttempts : Nat
  interval : Option Nat
  backoffRate : Option Nat
  maxDelay : Option Nat
deriving DecidableEq, Repr

/-- addRetry for RateLimitError: maxAttempts 3, backoffRate 2, interval 30
seconds, maxDelay 60 seconds. -/
def rateLimitRetryProps : RetryProps :=
  { errors := ["RateLimitError"], maxAttempts := 3, interval := some 30,
    backoffRate := some 2, maxDelay := some 60 }

/-- addRetry for States.ALL: maxAttempts 3, no backoff fields declared. -/
def allErrorsRetryProps : RetryProps :=
  { errors := ["States.ALL"], maxAttempts := 3, interval := none,
    backoffRate := none, maxDelay := none }

/-- The retry policies attached to every lambda-task state, in addRetry
order, exactly as declared in the source. -/
def stateRetries : SMState → List RetryProps
  | .updateStatusOcr => [allErrorsRetryProps]
  | .ocrPrescription => [allErrorsRetryProps]
  | .updateStatusProcessing => [allErrorsRetryProps]
  | .extractPrescription => [rateLimitRetryProps, allErrorsRetryProps]
  | .updateStatusJudge => [allErrorsRetryProps]
  | .evaluateResponse => [rateLimitRetryProps, allErrorsRetryProps]
  | .updateStatusCorrect => [allErrorsRetryProps]
  | .correctResponse => [rateLimitRetryProps, allErrorsRetryProps]
  | .updateStatusCompleted => [allErrorsRetryProps]
  | .updateStatusFailed => [allErrorsRetryProps]
  | _ => []

/-- The four StageAdapter invocation states: Ocr, Extract, Evaluate,
Correct. -/
def isStageState : SMState → Bool
  | .ocrPrescription => true
  | .extractPrescription => true
  | .evaluateResponse => true
  | .correctResponse => true
  | _ => false

/-- The delay before retry attempt k (0-based) for a policy with interval i,
backoff rate b and an optional maximum delay, per the retrier semantics. -/
def backoffDelay (i b : Nat) (cap : Option Nat) (k : Nat) : Nat :=
  match cap with
  | some m => min (i * b ^ k) m
  | none => i * b ^ k

/-- The claim that every stage carries both composed retry policies. -/
def composedRetryClaim : Prop :=
  ∀ s : SMState, isStageState s = true →
    stateRetries s = [rateLimitRetryProps, allErrorsRetryProps]

/-- JavaScript string truthiness for the nullable strings of the resolver
context: undefined and the empty string are falsy. -/
def truthyS : Option String → Bool
  | none => false
  | some s => !s.isEmpty

/-- A stored job record as the getJobStatus resolver sees it: the owner
attribute may be absent; the remaining attributes are opaque here. -/
structure JobRecord where
  jobId : String
  owner : Option String
  payload : String
deriving DecidableEq, Repr

/-- The caller identity of the resolver context. -/
structure ResolverIdentity where
  issuer : Option String
  username : Option String
deriving DecidableEq, Repr

/-- An upstream error carried in the resolver context. -/
structure ResolverError where
  message : String
  errType : String
deriving DecidableEq, Repr

/-- The context of the getJobStatus response handler. -/
structure ResolverCtx where
  identity : ResolverIdentity
  result : Option JobRecord
  error : Option ResolverError
deriving DecidableEq, Repr

/-- What the response handler produces: the record, util.unauthorized, or
util.error. -/
inductive ResolverOutcome where
  | ok (r : JobRecord)
  | unauthorized
  | errored (message errType : String)
deriving DecidableEq, Repr

/-- The part of response(ctx) after the authorization checks: raise the
upstream error, raise NotFound when there is no record, else return it. -/
def responseTail (ctx : ResolverCtx) : ResolverOutcome :=
  match ctx.error with
  | some e => .errored e.message e.errType
  | none =>
    match ctx.result with
    | none => .errored "Job not found" "NotFound"
    | some r => .ok r

/-- ctx.result and ctx.result.owner !== ctx.identity.username. -/
def ownerMismatch (ctx : ResolverCtx) : Bool :=
  match ctx.result with
  | some r => decide (r.owner ≠ ctx.identity.username)
  | none => false

/-- The response function of the getJobStatus AppSync resolver. -/
def getJobStatusResponse (ctx : ResolverCtx) : ResolverOutcome :=
  if truthyS ctx.identity.issuer then
    if !truthyS ctx.identity.username then .unauthorized
    else if ownerMismatch ctx then .unauthorized
    else responseTail ctx
  else responseTail ctx

/-- A usage record with a recognisable token count. -/
def usageTok (k : Nat) : Usage :=
  { inputTokens := k, outputTokens := 0, cachedTokens := 0 }

/-- A sample execution input: no OCR, maxCorrections 2. -/
def sampleInput : JobInput :=
  { jobId := "job-1", image := "images/rx.jpg", prescriptionSchema := "schema",
    useTextract := some false, maxCorrections := some 2 }

/-- A sample Extract payload recognising the image as a prescription. -/
def sampleExtract : ExtractOutput :=
  { isPrescriptionO := true, isHandwritten := false, extraction := "data-0",
    usage := usageTok 1 }

/-- Sample Evaluate payloads: poor, then Fair, then good. -/
def sampleEval : Nat → EvalOutput
  | 0 => { score := "poor", feedback := "fb-0", usage := usageTok 10 }
  | 1 => { score := "Fair", feedback := "fb-1", usage := usageTok 11 }
  | _ => { score := "good", feedback := "fb-2", usage := usageTok 12 }

/-- Sample Correct payloads. -/
def sampleCorrect (k : Nat) : CorrectOutput :=
  { extraction := "data-c", usage := usageTok (20 + k) }

/-- A fault-free sample execution environment driving two corrections. -/
def sampleOracle : Oracle :=
  { input := sampleInput, propsMaxCorrections := 3, ocrText := "ocr-text",
    extractOut := sampleExtract, evalOut := sampleEval,
    correctOut := sampleCorrect, failAt := fun _ => false }

/-- The sample environment with an image that is not a prescription. -/
def invalidImageOracle : Oracle :=
  { sampleOracle with
    extractOut := { sampleExtract with isPrescriptionO := false } }

/-- The sample environment where the Extract invocation at global step 3
exhausts its retries. -/
def failingExtractOracle : Oracle :=
  { sampleOracle with failAt := fun k => k == 3 }

/-- The claim that JUDGE is the only pipeline state written more than once. -/
def onlyJudgeRevisited (c : Config) : Prop :=
  ∀ s : JobState, s ≠ JobState.JUDGE → countStateWrites s c ≤ 1

/-- A probe configuration sitting at the EvaluateResponse task. -/
def evalProbeConfig : Config :=
  { current := .evaluateResponse, vars := initVars, writes := [],
    stepCount := 0, nEval := 0, nCorrect := 0 }

/-- A probe configuration sitting at the UpdateStatusFailed task with
pending usage. -/
def failedProbeConfig : Config :=
  { current := .updateStatusFailed,
    vars := { initVars with usage := some (usageTok 5), errorCode := some "InvalidImage", errorMessage := some "The image does not contain a prescription." },
    writes := [], stepCount := 0, nEval := 0, nCorrect := 0 }

/-- A resolver context with a Cognito caller owning the stored record. -/
def sampleCtx : ResolverCtx :=
  { identity := { issuer := some "https://cognito-idp.example", username := some "alice" },
    result := some { jobId := "job-1", owner := some "alice", payload := "p" },
    error := none }

theorem writeRank_le_three (w : JobWrite) : writeRank w ≤ 3 := by
  unfold writeRank
  rcases w with ⟨j, st, s, u, sc, p, m, e⟩
  cases st <;> cases s <;> simp <;> first | rfl | (rename_i js; cases js <;> simp)

theorem writes_nonterminal {c : Config} (hk : terminalWrites c = []) :
    ∀ w ∈ c.writes, isTerminalWrite w = false := by
  intro w hw
  have := List.filter_eq_nil_iff.mp hk w hw
  simpa using this

theorem pairwise_rank_append {ws : List JobWrite} {w : JobWrite}
    (hp : List.Pairwise (fun a b => writeRank a ≤ writeRank b) ws)
    (hb : ∀ a ∈ ws, writeRank a ≤ writeRank w) :
    List.Pairwise (fun a b => writeRank a ≤ writeRank b) (ws ++ [w]) := by
  rw [List.pairwise_append]
  exact ⟨hp, List.pairwise_singleton _ _, fun a ha b hb2 => by
    simp only [List.mem_singleton] at hb2
    subst hb2
    exact hb a ha⟩

theorem machineInv_init (o : Oracle) : MachineInv o initConfig := by
  constructor <;> simp [initConfig, initVars, terminalWrites, countStateWrites,
    judgeSide, preOcrState, preExtractState, pendingNoneState]

/-- Preservation helper for transitions that append no JobStore write: the
machine moves to `t`, assigns variables `v2` and counters `ne2`, `nc2`. -/
theorem machineInv_assign (o : Oracle) (c : Config) (h : MachineInv o c)
    (t : SMState) (v2 : Vars) (ne2 nc2 : Nat)
    (h1 : t ≠ .storeInputs)
    (hcc0 : 0 ≤ v2.correctionCount)
    (hccle : v2.correctionCount ≤ max 0 v2.maxCorrections)
    (hmc : v2.maxCorrections = resolvedMaxCorrections o)
    (hET : t = .shouldCorrectChoice → v2.shouldCorrectV = true →
      v2.correctionCount < v2.maxCorrections)
    (hFT : t = .updateStatusCorrect → v2.correctionCount < v2.maxCorrections)
    (hGT : (nc2 : Int) + (if t = .correctResponse then 1 else 0) ≤ v2.correctionCount)
    (hHT : judgeSide t = true → v2.isPrescriptionV = true)
    (hIT : v2.isPrescriptionV = true → o.extractOut.isPrescriptionO = true)
    (hJ1T : o.extractOut.isPrescriptionO = false → ne2 = 0)
    (hJ2T : o.extractOut.isPrescriptionO = false → nc2 = 0)
    (hKT : t ≠ .success → t ≠ .failState → terminalWrites c = [])
    (hLT : t = .success ∨ t = .failState → (terminalWrites c).length = 1)
    (hNT : ∀ w ∈ c.writes, writeRank w ≤ stateFloor t)
    (hPT : preOcrState t = true → countStateWrites .TRANSCRIBE c = 0)
    (hQT : preExtractState t = true → countStateWrites .EXTRACT c = 0)
    (hRT : (countStateWrites .CORRECT c : Int) = v2.correctionCount)
    (hST : pendingNoneState t = true → v2.usage = none) :
    MachineInv o
      { c with
        current := t, vars := v2, stepCount := c.stepCount + 1,
        nEval := ne2, nCorrect := nc2 } := by
  constructor
  case atStart => intro habs; exact absurd habs h1
  case ccNonneg => exact hcc0
  case ccLe => exact hccle
  case mcRes => exact fun _ => hmc
  case guardChoice => exact hET
  case guardCorrect => exact hFT
  case nCorrectLe => exact hGT
  case prescGate => exact hHT
  case prescSrc => exact hIT
  case noJudgeEval => exact hJ1T
  case noJudgeCorrect => exact hJ2T
  case termEmpty => exact hKT
  case termOne => exact hLT
  case rankSorted => exact h.rankSorted
  case rankFloor => exact hNT
  case dropLastNonTerm => exact h.dropLastNonTerm
  case transcribeZero => exact hPT
  case transcribeOnce => exact h.transcribeOnce
  case extractZero => exact hQT
  case extractOnce => exact h.extractOnce
  case correctWrites => exact hRT
  case pendingNone => exact hST

/-- Preservation helper for the update states: on success the machine appends
one write `w`, assigns variables `v2` and moves to `t`; counters unchanged. -/
theorem machineInv_write (o : Oracle) (c : Config) (h : MachineInv o c)
    (t : SMState) (v2 : Vars) (w : JobWrite)
    (h1 : t ≠ .storeInputs)
    (hOld1 : c.current ≠ .success) (hOld2 : c.current ≠ .failState)
    (hcc0 : 0 ≤ v2.correctionCount)
    (hccle : v2.correctionCount ≤ max 0 v2.maxCorrections)
    (hmc : v2.maxCorrections = resolvedMaxCorrections o)
    (hET : t = .shouldCorrectChoice → v2.shouldCorrectV = true →
      v2.correctionCount < v2.maxCorrections)
    (hFT : t = .updateStatusCorrect → v2.correctionCount < v2.maxCorrections)
    (hGT : (c.nCorrect : Int) + (if t = .correctResponse then 1 else 0) ≤ v2.correctionCount)
    (hHT : judgeSide t = true → v2.isPrescriptionV = true)
    (hIT : v2.isPrescriptionV = true → o.extractOut.isPrescriptionO = true)
    (htermiff : isTerminalWrite w = true ↔ (t = .success ∨ t = .failState))
    (hwrank : writeRank w = stateFloor c.current)
    (hfl : stateFloor c.current ≤ stateFloor t)
    (hPTf : preOcrState t = false)
    (hwTRA : w.state = some .TRANSCRIBE → countStateWrites .TRANSCRIBE c = 0)
    (hQT : preExtractState t = true →
      countStateWrites .EXTRACT c = 0 ∧ w.state ≠ some .EXTRACT)
    (hwEXT : w.state = some .EXTRACT → countStateWrites .EXTRACT c = 0)
    (hRT : (countStateWrites .CORRECT c : Int) +
      (if w.state = some .CORRECT then 1 else 0) = v2.correctionCount)
    (hST : pendingNoneState t = true → v2.usage = none) :
    MachineInv o
      { c with
        current := t, vars := v2, writes := c.writes ++ [w],
        stepCount := c.stepCount + 1 } := by
  have hOldEmpty : terminalWrites c = [] := h.termEmpty hOld1 hOld2
  constructor
  case atStart => intro habs; exact absurd habs h1
  case ccNonneg => exact hcc0
  case ccLe => exact hccle
  case mcRes => exact fun _ => hmc
  case guardChoice => exact hET
  case guardCorrect => exact hFT
  case nCorrectLe => exact hGT
  case prescGate => exact hHT
  case prescSrc => exact hIT
  case noJudgeEval => exact h.noJudgeEval
  case noJudgeCorrect => exact h.noJudgeCorrect
  case termEmpty =>
    intro ht1 ht2
    have hwnt : isTerminalWrite w = false := by
      cases hb : isTerminalWrite w
      · rfl
      · rcases htermiff.mp hb with hx | hx
        · exact absurd hx ht1
        · exact absurd hx ht2
    have h0 : List.filter isTerminalWrite c.writes = [] := hOldEmpty
    simp [terminalWrites, List.filter_append, hwnt, h0]
  case termOne =>
    intro ht
    have hwt : isTerminalWrite w = true := htermiff.mpr ht
    have h0 : List.filter isTerminalWrite c.writes = [] := hOldEmpty
    simp [terminalWrites, List.filter_append, hwt, h0]
  case rankSorted =>
    exact pairwise_rank_append h.rankSorted
      (fun a ha => by rw [hwrank]; exact h.rankFloor a ha)
  case rankFloor =>
    intro x hx
    rcases List.mem_append.mp hx with hx | hx
    · exact le_trans (h.rankFloor x hx) hfl
    · simp only [List.mem_singleton] at hx
      subst hx
      rw [hwrank]
      exact hfl
  case dropLastNonTerm =>
    intro x hx
    rw [List.dropLast_concat] at hx
    exact writes_nonterminal hOldEmpty x hx
  case transcribeZero =>
    intro hx
    rw [hPTf] at hx
    cases hx
  case transcribeOnce =>
    have hold := h.transcribeOnce
    simp only [countStateWrites] at hold
    by_cases hwv : w.state = some JobState.TRANSCRIBE
    · have h0 := hwTRA hwv
      simp only [countStateWrites] at h0
      simp [countStateWrites, List.filter_append, hwv, h0]
    · simp [countStateWrites, List.filter_append, hwv]
      omega
  case extractZero =>
    intro hx
    obtain ⟨hz, hne⟩ := hQT hx
    simp only [countStateWrites] at hz
    simp [countStateWrites, List.filter_append, hne, hz]
  case extractOnce =>
    have hold := h.extractOnce
    simp only [countStateWrites] at hold
    by_cases hwv : w.state = some JobState.EXTRACT
    · have h0 := hwEXT hwv
      simp only [countStateWrites] at h0
      simp [countStateWrites, List.filter_append, hwv, h0]
    · simp [countStateWrites, List.filter_append, hwv]
      omega
  case correctWrites =>
    simp only [countStateWrites] at hRT
    by_cases hwv : w.state = some JobState.CORRECT
    · rw [if_pos hwv] at hRT
      simp [countStateWrites, List.filter_append, hwv]
      linarith
    · rw [if_neg hwv] at hRT
      simp [countStateWrites, List.filter_append, hwv]
      linarith
  case pendingNone => exact hST

/-- Preservation instance for a failed task invocation caught by the
CatchHandler: variables, writes and counters unchanged. -/
theorem machineInv_toCatch (o : Oracle) (c : Config) (h : MachineInv o c)
    (h0 : c.current ≠ .storeInputs) (h2 : c.current ≠ .success)
    (h3 : c.current ≠ .failState)
    (hG : (c.nCorrect : Int) ≤ c.vars.correctionCount) :
    MachineInv o
      { c with
        current := .catchHandler, vars := c.vars, stepCount := c.stepCount + 1,
        nEval := c.nEval, nCorrect := c.nCorrect } :=
  machineInv_assign o c h .catchHandler c.vars c.nEval c.nCorrect
    (by simp) h.ccNonneg h.ccLe (h.mcRes h0) (by simp) (by simp)
    (by simpa using hG) (by intro hx; simp [judgeSide] at hx)
    h.prescSrc h.noJudgeEval h.noJudgeCorrect
    (fun _ _ => h.termEmpty h2 h3) (by simp)
    (fun w _ => le_trans (writeRank_le_three w) (by simp [stateFloor]))
    (by intro hx; simp [preOcrState] at hx)
    (by intro hx; simp [preExtractState] at hx)
    h.correctWrites
    (by intro hx; simp [pendingNoneState] at hx)

theorem machineInv_step (o : Oracle) (c : Config) (h : MachineInv o c) :
    MachineInv o (step o c) := by
  cases hcur : c.current
  case storeInputs =>
    rw [h.atStart hcur]
    constructor <;>
      simp [step, initConfig, initVars, resolvedMaxCorrections, terminalWrites,
        countStateWrites, judgeSide, preOcrState, preExtractState,
        pendingNoneState, le_max_left]
  case shouldOcr =>
    cases hut : c.vars.useTextract
    case false =>
      have hst : step o c =
          { c with
            current := .updateStatusProcessing, vars := c.vars,
            stepCount := c.stepCount + 1, nEval := c.nEval, nCorrect := c.nCorrect } := by
        simp [step, hcur, hut]
      rw [hst]
      exact machineInv_assign o c h .updateStatusProcessing c.vars c.nEval c.nCorrect
        (by simp) h.ccNonneg h.ccLe (h.mcRes (by simp [hcur])) (by simp) (by simp)
        (by have hx := h.nCorrectLe; simp [hcur] at hx; simpa using hx)
        (by intro hx; simp [judgeSide] at hx)
        h.prescSrc h.noJudgeEval h.noJudgeCorrect
        (fun _ _ => h.termEmpty (by simp [hcur]) (by simp [hcur])) (by simp)
        (fun w hw => le_trans (h.rankFloor w hw) (by simp [hcur, stateFloor]))
        (by intro hx; simp [preOcrState] at hx)
        (fun _ => h.extractZero (by simp [hcur, preExtractState]))
        h.correctWrites
        (fun _ => h.pendingNone (by simp [hcur, pendingNoneState]))
    case true =>
      have hst : step o c =
          { c with
            current := .updateStatusOcr, vars := c.vars,
            stepCount := c.stepCount + 1, nEval := c.nEval, nCorrect := c.nCorrect } := by
        simp [step, hcur, hut]
      rw [hst]
      exact machineInv_assign o c h .updateStatusOcr c.vars c.nEval c.nCorrect
        (by simp) h.ccNonneg h.ccLe (h.mcRes (by simp [hcur])) (by simp) (by simp)
        (by have hx := h.nCorrectLe; simp [hcur] at hx; simpa using hx)
        (by intro hx; simp [judgeSide] at hx)
        h.prescSrc h.noJudgeEval h.noJudgeCorrect
        (fun _ _ => h.termEmpty (by simp [hcur]) (by simp [hcur])) (by simp)
        (fun w hw => le_trans (h.rankFloor w hw) (by simp [hcur, stateFloor]))
        (fun _ => h.transcribeZero (by simp [hcur, preOcrState]))
        (fun _ => h.extractZero (by simp [hcur, preExtractState]))
        h.correctWrites
        (fun _ => h.pendingNone (by simp [hcur, pendingNoneState]))
  case updateStatusOcr =>
    by_cases hf : o.failAt c.stepCount = true
    · have hst : step o c =
          { c with
            current := .catchHandler, vars := c.vars, stepCount := c.stepCount + 1,
            nEval := c.nEval, nCorrect := c.nCorrect } := by
        simp [step, hcur, hf]
      rw [hst]
      exact machineInv_toCatch o c h (by simp [hcur]) (by simp [hcur]) (by simp [hcur])
        (by have hx := h.nCorrectLe; simp [hcur] at hx; omega)
    · have hst : step o c =
          { c with
            current := .ocrPrescription, vars := c.vars,
            writes := c.writes ++ [{ jobId := c.vars.jobId, status := .PROCESSING, state := some .TRANSCRIBE, usage := [], score := none, prescriptionData := none, message := none, error := none }],
            stepCount := c.stepCount + 1 } := by
        simp [step, hcur, hf]
      rw [hst]
      exact machineInv_write o c h .ocrPrescription c.vars _
        (by simp) (by simp [hcur]) (by simp [hcur])
        h.ccNonneg h.ccLe (h.mcRes (by simp [hcur])) (by simp) (by simp)
        (by have hx := h.nCorrectLe; simp [hcur] at hx; simpa using hx)
        (by intro hx; simp [judgeSide] at hx)
        h.prescSrc
        (by simp [isTerminalWrite])
        (by simp [hcur, writeRank, stateFloor])
        (by simp [hcur, stateFloor])
        (by simp [preOcrState])
        (fun _ => h.transcribeZero (by simp [hcur, preOcrState]))
        (fun _ => ⟨h.extractZero (by simp [hcur, preExtractState]), by simp⟩)
        (by intro hx; simp at hx)
        (by simpa using h.correctWrites)
        (fun _ => h.pendingNone (by simp [hcur, pendingNoneState]))
  case ocrPrescription =>
    by_cases hf : o.failAt c.stepCount = true
    · have hst : step o c =
          { c with
            current := .catchHandler, vars := c.vars, stepCount := c.stepCount + 1,
            nEval := c.nEval, nCorrect := c.nCorrect } := by
        simp [step, hcur, hf]
      rw [hst]
      exact machineInv_toCatch o c h (by simp [hcur]) (by simp [hcur]) (by simp [hcur])
        (by have hx := h.nCorrectLe; simp [hcur] at hx; omega)
    · have hst : step o c =
          { c with
            current := .updateStatusProcessing,
            vars := { c.vars with ocrText := some o.ocrText },
            stepCount := c.stepCount + 1, nEval := c.nEval, nCorrect := c.nCorrect } := by
        simp [step, hcur, hf]
      rw [hst]
      exact machineInv_assign o c h .updateStatusProcessing _ c.nEval c.nCorrect
        (by simp) h.ccNonneg h.ccLe (h.mcRes (by simp [hcur])) (by simp) (by simp)
        (by have hx := h.nCorrectLe; simp [hcur] at hx; simpa using hx)
        (by intro hx; simp [judgeSide] at hx)
        h.prescSrc h.noJudgeEval h.noJudgeCorrect
        (fun _ _ => h.termEmpty (by simp [hcur]) (by simp [hcur])) (by simp)
        (fun w hw => le_trans (h.rankFloor w hw) (by simp [hcur, stateFloor]))
        (by intro hx; simp [preOcrState] at hx)
        (fun _ => h.extractZero (by simp [hcur, preExtractState]))
        h.correctWrites
        (fun _ => h.pendingNone (by simp [hcur, pendingNoneState]))
  case updateStatusProcessing =>
    by_cases hf : o.failAt c.stepCount = true
    · have hst : step o c =
          { c with
            current := .catchHandler, vars := c.vars, stepCount := c.stepCount + 1,
            nEval := c.nEval, nCorrect := c.nCorrect } := by
        simp [step, hcur, hf]
      rw [hst]
      exact machineInv_toCatch o c h (by simp [hcur]) (by simp [hcur]) (by simp [hcur])
        (by have hx := h.nCorrectLe; simp [hcur] at hx; omega)
    · have hst : step o c =
          { c with
            current := .extractPrescription,
            vars := { c.vars with usage := none },
            writes := c.writes ++ [{ jobId := c.vars.jobId, status := .PROCESSING, state := some .EXTRACT, usage := [], score := none, prescriptionData := none, message := none, error := none }],
            stepCount := c.stepCount + 1, nEval := c.nEval, nCorrect := c.nCorrect } := by
        simp [step, hcur, hf]
      rw [hst]
      exact machineInv_write o c h .extractPrescription _ _
        (by simp) (by simp [hcur]) (by simp [hcur])
        h.ccNonneg h.ccLe (h.mcRes (by simp [hcur])) (by simp) (by simp)
        (by have hx := h.nCorrectLe; simp [hcur] at hx; simpa using hx)
        (by intro hx; simp [judgeSide] at hx)
        h.prescSrc
        (by simp [isTerminalWrite])
        (by simp [hcur, writeRank, stateFloor])
        (by simp [hcur, stateFloor])
        (by simp [preOcrState])
        (by intro hx; simp at hx)
        (by intro hx; simp [preExtractState] at hx)
        (fun _ => h.extractZero (by simp [hcur, preExtractState]))
        (by simpa using h.correctWrites)
        (fun _ => rfl)
  case extractPrescription =>
    by_cases hf : o.failAt c.stepCount = true
    · have hst : step o c =
          { c with
            current := .catchHandler, vars := c.vars, stepCount := c.stepCount + 1,
            nEval := c.nEval, nCorrect := c.nCorrect } := by
        simp [step, hcur, hf]
      rw [hst]
      exact machineInv_toCatch o c h (by simp [hcur]) (by simp [hcur]) (by simp [hcur])
        (by have hx := h.nCorrectLe; simp [hcur] at hx; omega)
    · have hst : step o c =
          { c with
            current := .isPrescriptionChoice,
            vars := { c.vars with isHandwritten := o.extractOut.isHandwritten, isPrescriptionV := o.extractOut.isPrescriptionO, extraction := o.extractOut.extraction, usage := some o.extractOut.usage },
            stepCount := c.stepCount + 1, nEval := c.nEval, nCorrect := c.nCorrect } := by
        simp [step, hcur, hf]
      rw [hst]
      exact machineInv_assign o c h .isPrescriptionChoice _ c.nEval c.nCorrect
        (by simp) h.ccNonneg h.ccLe (h.mcRes (by simp [hcur])) (by simp) (by simp)
        (by have hx := h.nCorrectLe; simp [hcur] at hx; simpa using hx)
        (by intro hx; simp [judgeSide] at hx)
        (fun hx => hx) h.noJudgeEval h.noJudgeCorrect
        (fun _ _ => h.termEmpty (by simp [hcur]) (by simp [hcur])) (by simp)
        (fun w hw => le_trans (h.rankFloor w hw) (by simp [hcur, stateFloor]))
        (by intro hx; simp [preOcrState] at hx)
        (by intro hx; simp [preExtractState] at hx)
        h.correctWrites
        (by intro hx; simp [pendingNoneState] at hx)
  case isPrescriptionChoice =>
    cases hv : c.vars.isPrescriptionV
    case true =>
      have hst : step o c =
          { c with
            current := .updateStatusJudge,
            vars := { c.vars with errorCode := none, errorMessage := none },
            stepCount := c.stepCount + 1, nEval := c.nEval, nCorrect := c.nCorrect } := by
        simp [step, hcur, hv]
      rw [hst]
      exact machineInv_assign o c h .updateStatusJudge _ c.nEval c.nCorrect
        (by simp) h.ccNonneg h.ccLe (h.mcRes (by simp [hcur])) (by simp) (by simp)
        (by have hx := h.nCorrectLe; simp [hcur] at hx; simpa using hx)
        (fun _ => hv)
        h.prescSrc h.noJudgeEval h.noJudgeCorrect
        (fun _ _ => h.termEmpty (by simp [hcur]) (by simp [hcur])) (by simp)
        (fun w hw => le_trans (h.rankFloor w hw) (by simp [hcur, stateFloor]))
        (by intro hx; simp [preOcrState] at hx)
        (by intro hx; simp [preExtractState] at hx)
        h.correctWrites
        (by intro hx; simp [pendingNoneState] at hx)
    case false =>
      have hst : step o c =
          { c with
            current := .updateStatusFailed,
            vars := { c.vars with errorCode := some "InvalidImage", errorMessage := some "The image does not contain a prescription." },
            stepCount := c.stepCount + 1, nEval := c.nEval, nCorrect := c.nCorrect } := by
        simp [step, hcur, hv]
      rw [hst]
      exact machineInv_assign o c h .updateStatusFailed _ c.nEval c.nCorrect
        (by simp) h.ccNonneg h.ccLe (h.mcRes (by simp [hcur])) (by simp) (by simp)
        (by have hx := h.nCorrectLe; simp [hcur] at hx; simpa using hx)
        (by intro hx; simp [judgeSide] at hx)
        h.prescSrc h.noJudgeEval h.noJudgeCorrect
        (fun _ _ => h.termEmpty (by simp [hcur]) (by simp [hcur])) (by simp)
        (fun w hw => le_trans (h.rankFloor w hw) (by simp [hcur, stateFloor]))
        (by intro hx; simp [preOcrState] at hx)
        (by intro hx; simp [preExtractState] at hx)
        h.correctWrites
        (by intro hx; simp [pendingNoneState] at hx)
  case updateStatusJudge =>
    by_cases hf : o.failAt c.stepCount = true
    · have hst : step o c =
          { c with
            current := .catchHandler, vars := c.vars, stepCount := c.stepCount + 1,
            nEval := c.nEval, nCorrect := c.nCorrect } := by
        simp [step, hcur, hf]
      rw [hst]
      exact machineInv_toCatch o c h (by simp [hcur]) (by simp [hcur]) (by simp [hcur])
        (by have hx := h.nCorrectLe; simp [hcur] at hx; omega)
    · have hst : step o c =
          { c with
            current := .evaluateResponse,
            vars := { c.vars with usage := none },
            writes := c.writes ++ [{ jobId := c.vars.jobId, status := .PROCESSING, state := some .JUDGE, usage := [c.vars.usage], score := none, prescriptionData := none, message := none, error := none }],
            stepCount := c.stepCount + 1, nEval := c.nEval, nCorrect := c.nCorrect } := by
        simp [step, hcur, hf]
      rw [hst]
      exact machineInv_write o c h .evaluateResponse _ _
        (by simp) (by simp [hcur]) (by simp [hcur])
        h.ccNonneg h.ccLe (h.mcRes (by simp [hcur])) (by simp) (by simp)
        (by have hx := h.nCorrectLe; simp [hcur] at hx; simpa using hx)
        (fun _ => h.prescGate (by simp [hcur, judgeSide]))
        h.prescSrc
        (by simp [isTerminalWrite])
        (by simp [hcur, writeRank, stateFloor])
        (by simp [hcur, stateFloor])
        (by simp [preOcrState])
        (by intro hx; simp at hx)
        (by intro hx; simp [preExtractState] at hx)
        (by intro hx; simp at hx)
        (by simpa using h.correctWrites)
        (fun _ => rfl)
  case evaluateResponse =>
    by_cases hf : o.failAt c.stepCount = true
    · have hst : step o c =
          { c with
            current := .catchHandler, vars := c.vars, stepCount := c.stepCount + 1,
            nEval := c.nEval + 1, nCorrect := c.nCorrect } := by
        simp [step, hcur, hf]
      rw [hst]
      exact machineInv_assign o c h .catchHandler c.vars (c.nEval + 1) c.nCorrect
        (by simp) h.ccNonneg h.ccLe (h.mcRes (by simp [hcur])) (by simp) (by simp)
        (by have hx := h.nCorrectLe; simp [hcur] at hx; simpa using hx)
        (by intro hx; simp [judgeSide] at hx)
        h.prescSrc
        (fun hfalse => absurd (h.prescSrc (h.prescGate (by simp [hcur, judgeSide]))) (by simp [hfalse]))
        h.noJudgeCorrect
        (fun _ _ => h.termEmpty (by simp [hcur]) (by simp [hcur])) (by simp)
        (fun w _ => le_trans (writeRank_le_three w) (by simp [stateFloor]))
        (by intro hx; simp [preOcrState] at hx)
        (by intro hx; simp [preExtractState] at hx)
        h.correctWrites
        (by intro hx; simp [pendingNoneState] at hx)
    · have hst : step o c =
          { c with
            current := .shouldCorrectChoice,
            vars := { c.vars with score := upScore (o.evalOut c.nEval).score, feedback := (o.evalOut c.nEval).feedback, usage := some (o.evalOut c.nEval).usage, shouldCorrectV := decide ((upScore (o.evalOut c.nEval).score = "POOR" ∨ upScore (o.evalOut c.nEval).score = "FAIR") ∧ c.vars.correctionCount < c.vars.maxCorrections) },
            stepCount := c.stepCount + 1, nEval := c.nEval + 1, nCorrect := c.nCorrect } := by
        simp [step, hcur, hf]
      rw [hst]
      exact machineInv_assign o c h .shouldCorrectChoice _ (c.nEval + 1) c.nCorrect
        (by simp) h.ccNonneg h.ccLe (h.mcRes (by simp [hcur]))
        (fun _ hsc => (of_decide_eq_true hsc).2)
        (by simp)
        (by have hx := h.nCorrectLe; simp [hcur] at hx; simpa using hx)
        (fun _ => h.prescGate (by simp [hcur, judgeSide]))
        h.prescSrc
        (fun hfalse => absurd (h.prescSrc (h.prescGate (by simp [hcur, judgeSide]))) (by simp [hfalse]))
        h.noJudgeCorrect
        (fun _ _ => h.termEmpty (by simp [hcur]) (by simp [hcur])) (by simp)
        (fun w hw => le_trans (h.rankFloor w hw) (by simp [hcur, stateFloor]))
        (by intro hx; simp [preOcrState] at hx)
        (by intro hx; simp [preExtractState] at hx)
        h.correctWrites
        (by intro hx; simp [pendingNoneState] at hx)
  case shouldCorrectChoice =>
    cases hsc : c.vars.shouldCorrectV
    case true =>
      have hst : step o c =
          { c with
            current := .updateStatusCorrect, vars := c.vars,
            stepCount := c.stepCount + 1, nEval := c.nEval, nCorrect := c.nCorrect } := by
        simp [step, hcur, hsc]
      rw [hst]
      exact machineInv_assign o c h .updateStatusCorrect c.vars c.nEval c.nCorrect
        (by simp) h.ccNonneg h.ccLe (h.mcRes (by simp [hcur])) (by simp)
        (fun _ => h.guardChoice hcur hsc)
        (by have hx := h.nCorrectLe; simp [hcur] at hx; simpa using hx)
        (fun _ => h.prescGate (by simp [hcur, judgeSide]))
        h.prescSrc h.noJudgeEval h.noJudgeCorrect
        (fun _ _ => h.termEmpty (by simp [hcur]) (by simp [hcur])) (by simp)
        (fun w hw => le_trans (h.rankFloor w hw) (by simp [hcur, stateFloor]))
        (by intro hx; simp [preOcrState] at hx)
        (by intro hx; simp [preExtractState] at hx)
        h.correctWrites
        (by intro hx; simp [pendingNoneState] at hx)
    case false =>
      have hst : step o c =
          { c with
            current := .updateStatusCompleted, vars := c.vars,
            stepCount := c.stepCount + 1, nEval := c.nEval, nCorrect := c.nCorrect } := by
        simp [step, hcur, hsc]
      rw [hst]
      exact machineInv_assign o c h .updateStatusCompleted c.vars c.nEval c.nCorrect
        (by simp) h.ccNonneg h.ccLe (h.mcRes (by simp [hcur])) (by simp) (by simp)
        (by have hx := h.nCorrectLe; simp [hcur] at hx; simpa using hx)
        (fun _ => h.prescGate (by simp [hcur, judgeSide]))
        h.prescSrc h.noJudgeEval h.noJudgeCorrect
        (fun _ _ => h.termEmpty (by simp [hcur]) (by simp [hcur])) (by simp)
        (fun w hw => le_trans (h.rankFloor w hw) (by simp [hcur, stateFloor]))
        (by intro hx; simp [preOcrState] at hx)
        (by intro hx; simp [preExtractState] at hx)
        h.correctWrites
        (by intro hx; simp [pendingNoneState] at hx)
  case updateStatusCorrect =>
    by_cases hf : o.failAt c.stepCount = true
    · have hst : step o c =
          { c with
            current := .catchHandler, vars := c.vars, stepCount := c.stepCount + 1,
            nEval := c.nEval, nCorrect := c.nCorrect } := by
        simp [step, hcur, hf]
      rw [hst]
      exact machineInv_toCatch o c h (by simp [hcur]) (by simp [hcur]) (by simp [hcur])
        (by have hx := h.nCorrectLe; simp [hcur] at hx; omega)
    · have hst : step o c =
          { c with
            current := .correctResponse,
            vars := { c.vars with usage := none, correctionCount := c.vars.correctionCount + 1 },
            writes := c.writes ++ [{ jobId := c.vars.jobId, status := .PROCESSING, state := some .CORRECT, usage := [c.vars.usage], score := some c.vars.score, prescriptionData := none, message := none, error := none }],
            stepCount := c.stepCount + 1, nEval := c.nEval, nCorrect := c.nCorrect } := by
        simp [step, hcur, hf]
      rw [hst]
      exact machineInv_write o c h .correctResponse _ _
        (by simp) (by simp [hcur]) (by simp [hcur])
        (by have := h.ccNonneg; show (0 : Int) ≤ c.vars.correctionCount + 1; omega)
        (by have h0 := h.ccNonneg; have h1 := h.guardCorrect hcur; show c.vars.correctionCount + 1 ≤ max 0 c.vars.maxCorrections; omega)
        (h.mcRes (by simp [hcur])) (by simp) (by simp)
        (by have hx := h.nCorrectLe; simp [hcur] at hx; simp; omega)
        (fun _ => h.prescGate (by simp [hcur, judgeSide]))
        h.prescSrc
        (by simp [isTerminalWrite])
        (by simp [hcur, writeRank, stateFloor])
        (by simp [hcur, stateFloor])
        (by simp [preOcrState])
        (by intro hx; simp at hx)
        (by intro hx; simp [preExtractState] at hx)
        (by intro hx; simp at hx)
        (by have hx := h.correctWrites; simp; omega)
        (fun _ => rfl)
  case correctResponse =>
    by_cases hf : o.failAt c.stepCount = true
    · have hst : step o c =
          { c with
            current := .catchHandler, vars := c.vars, stepCount := c.stepCount + 1,
            nEval := c.nEval, nCorrect := c.nCorrect + 1 } := by
        simp [step, hcur, hf]
      rw [hst]
      exact machineInv_assign o c h .catchHandler c.vars c.nEval (c.nCorrect + 1)
        (by simp) h.ccNonneg h.ccLe (h.mcRes (by simp [hcur])) (by simp) (by simp)
        (by have hx := h.nCorrectLe; simp [hcur] at hx; simp; omega)
        (by intro hx; simp [judgeSide] at hx)
        h.prescSrc h.noJudgeEval
        (fun hfalse => absurd (h.prescSrc (h.prescGate (by simp [hcur, judgeSide]))) (by simp [hfalse]))
        (fun _ _ => h.termEmpty (by simp [hcur]) (by simp [hcur])) (by simp)
        (fun w _ => le_trans (writeRank_le_three w) (by simp [stateFloor]))
        (by intro hx; simp [preOcrState] at hx)
        (by intro hx; simp [preExtractState] at hx)
        h.correctWrites
        (by intro hx; simp [pendingNoneState] at hx)
    · have hst : step o c =
          { c with
            current := .updateStatusJudge,
            vars := { c.vars with extraction := (o.correctOut c.nCorrect).extraction, usage := some (o.correctOut c.nCorrect).usage },
            stepCount := c.stepCount + 1, nEval := c.nEval, nCorrect := c.nCorrect + 1 } := by
        simp [step, hcur, hf]
      rw [hst]
      exact machineInv_assign o c h .updateStatusJudge _ c.nEval (c.nCorrect + 1)
        (by simp) h.ccNonneg h.ccLe (h.mcRes (by simp [hcur])) (by simp) (by simp)
        (by have hx := h.nCorrectLe; simp [hcur] at hx; simp; omega)
        (fun _ => h.prescGate (by simp [hcur, judgeSide]))
        h.prescSrc h.noJudgeEval
        (fun hfalse => absurd (h.prescSrc (h.prescGate (by simp [hcur, judgeSide]))) (by simp [hfalse]))
        (fun _ _ => h.termEmpty (by simp [hcur]) (by simp [hcur])) (by simp)
        (fun w hw => le_trans (h.rankFloor w hw) (by simp [hcur, stateFloor]))
        (by intro hx; simp [preOcrState] at hx)
        (by intro hx; simp [preExtractState] at hx)
        h.correctWrites
        (by intro hx; simp [pendingNoneState] at hx)
  case updateStatusCompleted =>
    by_cases hf : o.failAt c.stepCount = true
    · have hst : step o c =
          { c with
            current := .catchHandler, vars := c.vars, stepCount := c.stepCount + 1,
            nEval := c.nEval, nCorrect := c.nCorrect } := by
        simp [step, hcur, hf]
      rw [hst]
      exact machineInv_toCatch o c h (by simp [hcur]) (by simp [hcur]) (by simp [hcur])
        (by have hx := h.nCorrectLe; simp [hcur] at hx; omega)
    · have hst : step o c =
          { c with
            current := .success,
            vars := { c.vars with usage := none },
            writes := c.writes ++ [{ jobId := c.vars.jobId, status := .COMPLETED, state := none, usage := [c.vars.usage], score := some c.vars.score, prescriptionData := some c.vars.extraction, message := some c.vars.feedback, error := none }],
            stepCount := c.stepCount + 1, nEval := c.nEval, nCorrect := c.nCorrect } := by
        simp [step, hcur, hf]
      rw [hst]
      exact machineInv_write o c h .success _ _
        (by simp) (by simp [hcur]) (by simp [hcur])
        h.ccNonneg h.ccLe (h.mcRes (by simp [hcur])) (by simp) (by simp)
        (by have hx := h.nCorrectLe; simp [hcur] at hx; simpa using hx)
        (fun _ => h.prescGate (by simp [hcur, judgeSide]))
        h.prescSrc
        (by simp [isTerminalWrite])
        (by simp [hcur, writeRank, stateFloor])
        (by simp [hcur, stateFloor])
        (by simp [preOcrState])
        (by intro hx; simp at hx)
        (by intro hx; simp [preExtractState] at hx)
        (by intro hx; simp at hx)
        (by simpa using h.correctWrites)
        (by intro hx; simp [pendingNoneState] at hx)
  case catchHandler =>
    have hst : step o c =
        { c with
          current := .updateStatusFailed,
          vars := { c.vars with errorMessage := some "Internal error", errorCode := some "InternalError" },
          stepCount := c.stepCount + 1, nEval := c.nEval, nCorrect := c.nCorrect } := by
      simp [step, hcur]
    rw [hst]
    exact machineInv_assign o c h .updateStatusFailed _ c.nEval c.nCorrect
      (by simp) h.ccNonneg h.ccLe (h.mcRes (by simp [hcur])) (by simp) (by simp)
      (by have hx := h.nCorrectLe; simp [hcur] at hx; simpa using hx)
      (by intro hx; simp [judgeSide] at hx)
      h.prescSrc h.noJudgeEval h.noJudgeCorrect
      (fun _ _ => h.termEmpty (by simp [hcur]) (by simp [hcur])) (by simp)
      (fun w _ => le_trans (writeRank_le_three w) (by simp [stateFloor]))
      (by intro hx; simp [preOcrState] at hx)
      (by intro hx; simp [preExtractState] at hx)
      h.correctWrites
      (by intro hx; simp [pendingNoneState] at hx)
  case updateStatusFailed =>
    by_cases hf : o.failAt c.stepCount = true
    · have hst : step o c =
          { c with
            current := .aborted, vars := c.vars, stepCount := c.stepCount + 1,
            nEval := c.nEval, nCorrect := c.nCorrect } := by
        simp [step, hcur, hf]
      rw [hst]
      exact machineInv_assign o c h .aborted c.vars c.nEval c.nCorrect
        (by simp) h.ccNonneg h.ccLe (h.mcRes (by simp [hcur])) (by simp) (by simp)
        (by have hx := h.nCorrectLe; simp [hcur] at hx; simpa using hx)
        (by intro hx; simp [judgeSide] at hx)
        h.prescSrc h.noJudgeEval h.noJudgeCorrect
        (fun _ _ => h.termEmpty (by simp [hcur]) (by simp [hcur])) (by simp)
        (fun w _ => le_trans (writeRank_le_three w) (by simp [stateFloor]))
        (by intro hx; simp [preOcrState] at hx)
        (by intro hx; simp [preExtractState] at hx)
        h.correctWrites
        (by intro hx; simp [pendingNoneState] at hx)
    · have hst : step o c =
          { c with
            current := .failState, vars := c.vars,
            writes := c.writes ++ [{ jobId := c.vars.jobId, status := .FAILED, state := none, usage := failedUsagePayload c.vars.usage, score := none, prescriptionData := none, message := none, error := some { message := c.vars.errorMessage, code := c.vars.errorCode } }],
            stepCount := c.stepCount + 1, nEval := c.nEval, nCorrect := c.nCorrect } := by
        simp [step, hcur, hf]
      rw [hst]
      exact machineInv_write o c h .failState c.vars _
        (by simp) (by simp [hcur]) (by simp [hcur])
        h.ccNonneg h.ccLe (h.mcRes (by simp [hcur])) (by simp) (by simp)
        (by have hx := h.nCorrectLe; simp [hcur] at hx; simpa using hx)
        (by intro hx; simp [judgeSide] at hx)
        h.prescSrc
        (by simp [isTerminalWrite])
        (by simp [hcur, writeRank, stateFloor])
        (by simp [hcur, stateFloor])
        (by simp [preOcrState])
        (by intro hx; simp at hx)
        (by intro hx; simp [preExtractState] at hx)
        (by intro hx; simp at hx)
        (by simpa using h.correctWrites)
        (by intro hx; simp [pendingNoneState] at hx)
  case success =>
    have hst : step o c = c := by simp [step, hcur]
    rw [hst]
    exact h
  case failState =>
    have hst : step o c = c := by simp [step, hcur]
    rw [hst]
    exact h
  case aborted =>
    have hst : step o c = c := by simp [step, hcur]
    rw [hst]
    exact h

theorem run_succ (o : Oracle) (n : Nat) (c : Config) :
    run o (n + 1) c = step o (run o n c) := by
  induction n generalizing c with
  | zero => rfl
  | succ n ih =>
    show run o (n + 1) (step o c) = _
    rw [ih (step o c)]
    rfl

theorem run_add (o : Oracle) (m n : Nat) (c : Config) :
    run o (m + n) c = run o n (run o m c) := by
  induction m generalizing c with
  | zero => simp [run]
  | succ m ih =>
    have h1 : m + 1 + n = (m + n) + 1 := by omega
    rw [h1]
    show run o (m + n) (step o c) = _
    rw [ih (step o c)]
    rfl

theorem step_terminal (o : Oracle) (c : Config)
    (h : c.current = .success ∨ c.current = .failState ∨ c.current = .aborted) :
    step o c = c := by
  rcases h with h | h | h <;> simp [step, h]

theorem run_terminal_fixed (o : Oracle) (c : Config)
    (h : c.current = .success ∨ c.current = .failState ∨ c.current = .aborted)
    (n : Nat) : run o n c = c := by
  induction n with
  | zero => rfl
  | succ n ih => rw [run_succ, ih, step_terminal o c h]

theorem run_absorb (o : Oracle) (m n : Nat) (hmn : m ≤ n)
    (ht : (run o m initConfig).current = .success ∨
      (run o m initConfig).current = .failState ∨
      (run o m initConfig).current = .aborted) :
    run o n initConfig = run o m initConfig := by
  obtain ⟨k, rfl⟩ : ∃ k, n = m + k := ⟨n - m, by omega⟩
  rw [run_add]
  exact run_terminal_fixed o _ ht k

theorem machineInv_run (o : Oracle) (n : Nat) :
    MachineInv o (run o n initConfig) := by
  induction n with
  | zero => exact machineInv_init o
  | succ n ih =>
    rw [run_succ]
    exact machineInv_step o _ ih

theorem ecSeq_zero (o : Oracle) : ecSeq o 0 0 = [] := by
  simp [ecSeq]

theorem ecSeq_eval (o : Oracle) (k : Nat) :
    ecSeq o (k + 1) k = ecSeq o k k ++ [some (o.evalOut k).usage] := by
  simp [ecSeq]

theorem ecSeq_correct (o : Oracle) (j : Nat) :
    ecSeq o (j + 1) (j + 1) = ecSeq o (j + 1) j ++ [some (o.correctOut j).usage] := by
  simp [ecSeq, List.range_succ, fullCycleUsage]

theorem usageInv_init (o : Oracle) : UsageInv o initConfig := by
  refine ⟨by simp [counterRel, initConfig], by simp [pendingSomeState, initConfig], ?_⟩
  simp [writtenUsages, expectedUsage, extractDone, ecSeq, initConfig, initVars,
    optUsageList]

theorem usageInv_step (o : Oracle) (c : Config) (hff : ∀ k, o.failAt k = false)
    (hm : MachineInv o c) (h : UsageInv o c) : UsageInv o (step o c) := by
  obtain ⟨hcr, hps, heq⟩ := h
  have hf : o.failAt c.stepCount = false := hff c.stepCount
  cases hcur : c.current
  case storeInputs =>
    simp only [counterRel, hcur] at hcr
    simp only [hcur] at heq
    have hst : step o c =
        { c with
          current := .shouldOcr,
          vars := { c.vars with jobId := o.input.jobId, image := o.input.image, prescriptionSchema := o.input.prescriptionSchema, useTextract := o.input.useTextract.getD true, correctionCount := 0, maxCorrections := o.input.maxCorrections.getD o.propsMaxCorrections },
          stepCount := c.stepCount + 1, nEval := c.nEval, nCorrect := c.nCorrect } := by
      simp [step, hcur]
    rw [hst]
    refine ⟨by simp [counterRel, hcr], by simp [pendingSomeState], ?_⟩
    simpa [writtenUsages, expectedUsage, extractDone, hcur] using heq
  case shouldOcr =>
    simp only [counterRel, hcur] at hcr
    simp only [hcur] at heq
    cases hut : c.vars.useTextract
    case false =>
      have hst : step o c =
          { c with
            current := .updateStatusProcessing, vars := c.vars,
            stepCount := c.stepCount + 1, nEval := c.nEval, nCorrect := c.nCorrect } := by
        simp [step, hcur, hut]
      rw [hst]
      refine ⟨by simp [counterRel, hcr], by simp [pendingSomeState], ?_⟩
      simpa [writtenUsages, expectedUsage, extractDone, hcur] using heq
    case true =>
      have hst : step o c =
          { c with
            current := .updateStatusOcr, vars := c.vars,
            stepCount := c.stepCount + 1, nEval := c.nEval, nCorrect := c.nCorrect } := by
        simp [step, hcur, hut]
      rw [hst]
      refine ⟨by simp [counterRel, hcr], by simp [pendingSomeState], ?_⟩
      simpa [writtenUsages, expectedUsage, extractDone, hcur] using heq
  case updateStatusOcr =>
    simp only [counterRel, hcur] at hcr
    simp only [hcur] at heq
    have hst : step o c =
        { c with
          current := .ocrPrescription, vars := c.vars,
          writes := c.writes ++ [{ jobId := c.vars.jobId, status := .PROCESSING, state := some .TRANSCRIBE, usage := [], score := none, prescriptionData := none, message := none, error := none }],
          stepCount := c.stepCount + 1 } := by
      simp [step, hcur, hf]
    rw [hst]
    refine ⟨by simp [counterRel, hcr], by simp [pendingSomeState], ?_⟩
    simpa [writtenUsages, expectedUsage, extractDone, hcur] using heq
  case ocrPrescription =>
    simp only [counterRel, hcur] at hcr
    simp only [hcur] at heq
    have hst : step o c =
        { c with
          current := .updateStatusProcessing,
          vars := { c.vars with ocrText := some o.ocrText },
          stepCount := c.stepCount + 1, nEval := c.nEval, nCorrect := c.nCorrect } := by
      simp [step, hcur, hf]
    rw [hst]
    refine ⟨by simp [counterRel, hcr], by simp [pendingSomeState], ?_⟩
    simpa [writtenUsages, expectedUsage, extractDone, hcur] using heq
  case updateStatusProcessing =>
    simp only [counterRel, hcur] at hcr
    simp only [hcur] at heq
    have hpn : c.vars.usage = none := hm.pendingNone (by simp [hcur, pendingNoneState])
    have hst : step o c =
        { c with
          current := .extractPrescription,
          vars := { c.vars with usage := none },
          writes := c.writes ++ [{ jobId := c.vars.jobId, status := .PROCESSING, state := some .EXTRACT, usage := [], score := none, prescriptionData := none, message := none, error := none }],
          stepCount := c.stepCount + 1, nEval := c.nEval, nCorrect := c.nCorrect } := by
      simp [step, hcur, hf]
    rw [hst]
    refine ⟨by simp [counterRel, hcr], by simp [pendingSomeState], ?_⟩
    simpa [writtenUsages, expectedUsage, extractDone, hcur, hpn] using heq
  case extractPrescription =>
    simp only [counterRel, hcur] at hcr
    simp only [hcur] at heq
    have hpn : c.vars.usage = none := hm.pendingNone (by simp [hcur, pendingNoneState])
    have hst : step o c =
        { c with
          current := .isPrescriptionChoice,
          vars := { c.vars with isHandwritten := o.extractOut.isHandwritten, isPrescriptionV := o.extractOut.isPrescriptionO, extraction := o.extractOut.extraction, usage := some o.extractOut.usage },
          stepCount := c.stepCount + 1, nEval := c.nEval, nCorrect := c.nCorrect } := by
      simp [step, hcur, hf]
    rw [hst]
    refine ⟨by simp [counterRel, hcr], by simp [pendingSomeState], ?_⟩
    simp [writtenUsages, expectedUsage, extractDone, hcur, hpn, optUsageList,
      hcr.1, hcr.2, ecSeq_zero] at heq
    simp [writtenUsages, expectedUsage, extractDone, optUsageList, hcr.1, hcr.2,
      ecSeq_zero]
    exact heq
  case isPrescriptionChoice =>
    simp only [counterRel, hcur] at hcr
    simp only [hcur] at heq
    cases hv : c.vars.isPrescriptionV
    case true =>
      have hst : step o c =
          { c with
            current := .updateStatusJudge,
            vars := { c.vars with errorCode := none, errorMessage := none },
            stepCount := c.stepCount + 1, nEval := c.nEval, nCorrect := c.nCorrect } := by
        simp [step, hcur, hv]
      rw [hst]
      refine ⟨by simp [counterRel, hcr], ?_, ?_⟩
      · intro _
        exact hps (by simp [hcur, pendingSomeState])
      · simpa [writtenUsages, expectedUsage, extractDone, hcur] using heq
    case false =>
      have hst : step o c =
          { c with
            current := .updateStatusFailed,
            vars := { c.vars with errorCode := some "InvalidImage", errorMessage := some "The image does not contain a prescription." },
            stepCount := c.stepCount + 1, nEval := c.nEval, nCorrect := c.nCorrect } := by
        simp [step, hcur, hv]
      rw [hst]
      refine ⟨by simp [counterRel, hcr], by simp [pendingSomeState], ?_⟩
      simpa [writtenUsages, expectedUsage, extractDone, hcur] using heq
  case updateStatusJudge =>
    simp only [counterRel, hcur] at hcr
    simp only [hcur] at heq
    obtain ⟨u, hu⟩ := Option.isSome_iff_exists.mp (hps (by simp [hcur, pendingSomeState]))
    have hst : step o c =
        { c with
          current := .evaluateResponse,
          vars := { c.vars with usage := none },
          writes := c.writes ++ [{ jobId := c.vars.jobId, status := .PROCESSING, state := some .JUDGE, usage := [c.vars.usage], score := none, prescriptionData := none, message := none, error := none }],
          stepCount := c.stepCount + 1, nEval := c.nEval, nCorrect := c.nCorrect } := by
      simp [step, hcur, hf]
    rw [hst]
    refine ⟨by simp [counterRel, hcr], by simp [pendingSomeState], ?_⟩
    simpa [writtenUsages, expectedUsage, extractDone, hcur, hu, optUsageList] using heq
  case evaluateResponse =>
    simp only [counterRel, hcur] at hcr
    simp only [hcur] at heq
    have hpn : c.vars.usage = none := hm.pendingNone (by simp [hcur, pendingNoneState])
    have hst : step o c =
        { c with
          current := .shouldCorrectChoice,
          vars := { c.vars with score := upScore (o.evalOut c.nEval).score, feedback := (o.evalOut c.nEval).feedback, usage := some (o.evalOut c.nEval).usage, shouldCorrectV := decide ((upScore (o.evalOut c.nEval).score = "POOR" ∨ upScore (o.evalOut c.nEval).score = "FAIR") ∧ c.vars.correctionCount < c.vars.maxCorrections) },
          stepCount := c.stepCount + 1, nEval := c.nEval + 1, nCorrect := c.nCorrect } := by
      simp [step, hcur, hf]
    rw [hst]
    refine ⟨by simp [counterRel]; omega, by simp [pendingSomeState], ?_⟩
    simp [writtenUsages, expectedUsage, extractDone, hcur, optUsageList, hpn] at heq
    rw [← hcr] at heq
    simp [writtenUsages, expectedUsage, extractDone, optUsageList, ← hcr,
      ecSeq_eval, heq]
  case shouldCorrectChoice =>
    simp only [counterRel, hcur] at hcr
    simp only [hcur] at heq
    cases hsc : c.vars.shouldCorrectV
    case true =>
      have hst : step o c =
          { c with
            current := .updateStatusCorrect, vars := c.vars,
            stepCount := c.stepCount + 1, nEval := c.nEval, nCorrect := c.nCorrect } := by
        simp [step, hcur, hsc]
      rw [hst]
      refine ⟨by simp [counterRel, hcr], ?_, ?_⟩
      · intro _
        exact hps (by simp [hcur, pendingSomeState])
      · simpa [writtenUsages, expectedUsage, extractDone, hcur] using heq
    case false =>
      have hst : step o c =
          { c with
            current := .updateStatusCompleted, vars := c.vars,
            stepCount := c.stepCount + 1, nEval := c.nEval, nCorrect := c.nCorrect } := by
        simp [step, hcur, hsc]
      rw [hst]
      refine ⟨by simp [counterRel, hcr], ?_, ?_⟩
      · intro _
        exact hps (by simp [hcur, pendingSomeState])
      · simpa [writtenUsages, expectedUsage, extractDone, hcur] using heq
  case updateStatusCorrect =>
    simp only [counterRel, hcur] at hcr
    simp only [hcur] at heq
    obtain ⟨u, hu⟩ := Option.isSome_iff_exists.mp (hps (by simp [hcur, pendingSomeState]))
    have hst : step o c =
        { c with
          current := .correctResponse,
          vars := { c.vars with usage := none, correctionCount := c.vars.correctionCount + 1 },
          writes := c.writes ++ [{ jobId := c.vars.jobId, status := .PROCESSING, state := some .CORRECT, usage := [c.vars.usage], score := some c.vars.score, prescriptionData := none, message := none, error := none }],
          stepCount := c.stepCount + 1, nEval := c.nEval, nCorrect := c.nCorrect } := by
      simp [step, hcur, hf]
    rw [hst]
    refine ⟨by simp [counterRel, hcr], by simp [pendingSomeState], ?_⟩
    simpa [writtenUsages, expectedUsage, extractDone, hcur, hu, optUsageList] using heq
  case correctResponse =>
    simp only [counterRel, hcur] at hcr
    simp only [hcur] at heq
    have hpn : c.vars.usage = none := hm.pendingNone (by simp [hcur, pendingNoneState])
    have hst : step o c =
        { c with
          current := .updateStatusJudge,
          vars := { c.vars with extraction := (o.correctOut c.nCorrect).extraction, usage := some (o.correctOut c.nCorrect).usage },
          stepCount := c.stepCount + 1, nEval := c.nEval, nCorrect := c.nCorrect + 1 } := by
      simp [step, hcur, hf]
    rw [hst]
    refine ⟨by simp [counterRel]; omega, by simp [pendingSomeState], ?_⟩
    simp [writtenUsages, expectedUsage, extractDone, hcur, optUsageList, hpn] at heq
    rw [hcr] at heq
    simp [writtenUsages, expectedUsage, extractDone, optUsageList, hcr,
      ecSeq_correct, heq]
  case updateStatusCompleted =>
    simp only [counterRel, hcur] at hcr
    simp only [hcur] at heq
    obtain ⟨u, hu⟩ := Option.isSome_iff_exists.mp (hps (by simp [hcur, pendingSomeState]))
    have hst : step o c =
        { c with
          current := .success,
          vars := { c.vars with usage := none },
          writes := c.writes ++ [{ jobId := c.vars.jobId, status := .COMPLETED, state := none, usage := [c.vars.usage], score := some c.vars.score, prescriptionData := some c.vars.extraction, message := some c.vars.feedback, error := none }],
          stepCount := c.stepCount + 1, nEval := c.nEval, nCorrect := c.nCorrect } := by
      simp [step, hcur, hf]
    rw [hst]
    refine ⟨by simp [counterRel, hcr], by simp [pendingSomeState], ?_⟩
    simpa [writtenUsages, expectedUsage, extractDone, hcur, hu, optUsageList] using heq
  case catchHandler =>
    simp only [counterRel, hcur] at hcr
  case updateStatusFailed =>
    simp only [counterRel, hcur] at hcr
    simp only [hcur] at heq
    have hst : step o c =
        { c with
          current := .failState, vars := c.vars,
          writes := c.writes ++ [{ jobId := c.vars.jobId, status := .FAILED, state := none, usage := failedUsagePayload c.vars.usage, score := none, prescriptionData := none, message := none, error := some { message := c.vars.errorMessage, code := c.vars.errorCode } }],
          stepCount := c.stepCount + 1, nEval := c.nEval, nCorrect := c.nCorrect } := by
      simp [step, hcur, hf]
    rw [hst]
    refine ⟨by simp [counterRel, hcr], by simp [pendingSomeState], ?_⟩
    cases hu : c.vars.usage <;>
      simpa [writtenUsages, expectedUsage, extractDone, hcur, hu, optUsageList,
        failedUsagePayload] using heq
  case success =>
    have hst : step o c = c := by simp [step, hcur]
    rw [hst]
    exact ⟨hcr, hps, heq⟩
  case failState =>
    have hst : step o c = c := by simp [step, hcur]
    rw [hst]
    exact ⟨hcr, hps, heq⟩
  case aborted =>
    simp only [counterRel, hcur] at hcr

theorem usageInv_run (o : Oracle) (hff : ∀ k, o.failAt k = false) (n : Nat) :
    UsageInv o (run o n initConfig) := by
  induction n with
  | zero => exact usageInv_init o
  | succ n ih =>
    rw [run_succ]
    exact usageInv_step o _ hff (machineInv_run o n) ih

theorem mem_eq_of_length_le_one {α : Type} {l : List α} (h : l.length ≤ 1)
    {a b : α} (ha : a ∈ l) (hb : b ∈ l) : a = b := by
  cases l with
  | nil => cases ha
  | cons x t =>
    cases t with
    | nil =>
      simp only [List.mem_singleton] at ha hb
      rw [ha, hb]
    | cons y u => simp at h

theorem terminal_le_one (o : Oracle) (n : Nat) :
    (terminalWrites (run o n initConfig)).length ≤ 1 := by
  have h := machineInv_run o n
  by_cases hs : (run o n initConfig).current = .success
  · rw [h.termOne (Or.inl hs)]
  · by_cases hf2 : (run o n initConfig).current = .failState
    · rw [h.termOne (Or.inr hf2)]
    · simp [h.termEmpty hs hf2]

/-- Claim C1: with maxCorrections resolved to N ≥ 0, correctionCount never
exceeds N, the Correct stage is dispatched at most N times, and with N = 0
the correction loop is never entered regardless of the evaluation score. -/
theorem correction_loop_bounded (o : Oracle) (n : Nat)
    (hN : 0 ≤ resolvedMaxCorrections o) :
    (run o n initConfig).vars.correctionCount ≤ resolvedMaxCorrections o
    ∧ ((run o n initConfig).nCorrect : Int) ≤ resolvedMaxCorrections o
    ∧ (resolvedMaxCorrections o = 0 →
      (run o n initConfig).nCorrect = 0 ∧
      countStateWrites .CORRECT (run o n initConfig) = 0) := by
  have h := machineInv_run o n
  by_cases hcur : (run o n initConfig).current = .storeInputs
  · rw [h.atStart hcur]
    refine ⟨by simpa [initConfig, initVars] using hN,
      by simpa [initConfig] using hN, fun _ => ⟨rfl, ?_⟩⟩
    simp [initConfig, countStateWrites]
  · have hmc := h.mcRes hcur
    have h1 := h.ccLe
    have h3 := h.ccNonneg
    have h4 := h.correctWrites
    rw [hmc] at h1
    have h2 : ((run o n initConfig).nCorrect : Int) ≤
        (run o n initConfig).vars.correctionCount := by
      have hx := h.nCorrectLe
      by_cases hy : (run o n initConfig).current = .correctResponse <;>
        simp [hy] at hx <;> omega
    refine ⟨by omega, by omega, fun h0 => ?_⟩
    rw [h0] at h1
    constructor
    · omega
    · omega

/-- Claim C2: one execution makes at most one terminal JobStore write, makes
exactly one when it ends in the Succeed or Fail state, and never writes both
a COMPLETED and a FAILED record. -/
theorem terminal_write_exactly_once (o : Oracle) (n : Nat) :
    (terminalWrites (run o n initConfig)).length ≤ 1
    ∧ (((run o n initConfig).current = .success ∨
        (run o n initConfig).current = .failState) →
      (terminalWrites (run o n initConfig)).length = 1)
    ∧ ¬ ((∃ w ∈ (run o n initConfig).writes, w.status = Status.COMPLETED)
        ∧ (∃ w ∈ (run o n initConfig).writes, w.status = Status.FAILED)) := by
  have h := machineInv_run o n
  refine ⟨terminal_le_one o n, fun hx => h.termOne hx, ?_⟩
  rintro ⟨⟨w1, hw1, hs1⟩, ⟨w2, hw2, hs2⟩⟩
  have m1 : w1 ∈ terminalWrites (run o n initConfig) :=
    List.mem_filter.mpr ⟨hw1, by simp [isTerminalWrite, hs1]⟩
  have m2 : w2 ∈ terminalWrites (run o n initConfig) :=
    List.mem_filter.mpr ⟨hw2, by simp [isTerminalWrite, hs2]⟩
  have heq2 := mem_eq_of_length_le_one (terminal_le_one o n) m1 m2
  rw [heq2, hs2] at hs1
  cases hs1

/-- Claim C5 counterexample: in the sample two-correction execution the
CORRECT state is written twice, so JUDGE is not the only revisited state. -/
theorem status_monotonic_cex :
    ¬ onlyJudgeRevisited (run sampleOracle 30 initConfig) := by
  intro hcl
  exact absurd (hcl JobState.CORRECT (by decide)) (by decide)

/-- Claim C5 amended: the written (status, state) sequence is non-decreasing
in the transition-graph order, no write follows a terminal write, at most
one terminal write exists, and TRANSCRIBE and EXTRACT are written at most
once; only JUDGE and CORRECT can repeat, via the correction loop. -/
theorem status_monotonic_amended (o : Oracle) (n : Nat) :
    List.Pairwise (fun a b => writeRank a ≤ writeRank b) (run o n initConfig).writes
    ∧ (∀ w ∈ (run o n initConfig).writes.dropLast, isTerminalWrite w = false)
    ∧ (terminalWrites (run o n initConfig)).length ≤ 1
    ∧ countStateWrites .TRANSCRIBE (run o n initConfig) ≤ 1
    ∧ countStateWrites .EXTRACT (run o n initConfig) ≤ 1 := by
  have h := machineInv_run o n
  exact ⟨h.rankSorted, h.dropLastNonTerm, terminal_le_one o n,
    h.transcribeOnce, h.extractOnce⟩

/-- Claim C3: after a successful Evaluate, the machine reaches the
ShouldCorrect choice, takes the correction branch exactly when the
uppercased score is POOR or FAIR and correctionCount < maxCorrections, and
otherwise proceeds to UpdateStatusCompleted, whose successful invocation
appends the COMPLETED terminal write and ends in Succeed. -/
theorem evaluate_dispatch_iff (o : Oracle) (c : Config)
    (hc : c.current = .evaluateResponse)
    (hf : o.failAt c.stepCount = false) :
    (step o c).current = .shouldCorrectChoice
    ∧ ((step o (step o c)).current = .updateStatusCorrect ↔
        ((upScore (o.evalOut c.nEval).score = "POOR" ∨
          upScore (o.evalOut c.nEval).score = "FAIR")
          ∧ c.vars.correctionCount < c.vars.maxCorrections))
    ∧ (¬ ((upScore (o.evalOut c.nEval).score = "POOR" ∨
          upScore (o.evalOut c.nEval).score = "FAIR")
          ∧ c.vars.correctionCount < c.vars.maxCorrections) →
        (step o (step o c)).current = .updateStatusCompleted
        ∧ (o.failAt (c.stepCount + 2) = false →
          (step o (step o (step o c))).current = .success
          ∧ (step o (step o (step o c))).writes = c.writes ++
            [{ jobId := c.vars.jobId, status := Status.COMPLETED, state := none, usage := [some (o.evalOut c.nEval).usage], score := some (upScore (o.evalOut c.nEval).score), prescriptionData := some c.vars.extraction, message := some (o.evalOut c.nEval).feedback, error := none }])) := by
  have h1 : step o c =
      { c with
        current := .shouldCorrectChoice,
        vars := { c.vars with score := upScore (o.evalOut c.nEval).score, feedback := (o.evalOut c.nEval).feedback, usage := some (o.evalOut c.nEval).usage, shouldCorrectV := decide ((upScore (o.evalOut c.nEval).score = "POOR" ∨ upScore (o.evalOut c.nEval).score = "FAIR") ∧ c.vars.correctionCount < c.vars.maxCorrections) },
        stepCount := c.stepCount + 1, nEval := c.nEval + 1, nCorrect := c.nCorrect } := by
    simp [step, hc, hf]
  refine ⟨by rw [h1], ?_, ?_⟩
  · rw [h1]
    by_cases hcond : (upScore (o.evalOut c.nEval).score = "POOR" ∨
        upScore (o.evalOut c.nEval).score = "FAIR")
        ∧ c.vars.correctionCount < c.vars.maxCorrections
    · simp [step, hcond]
    · simp [step, hcond]
  · intro hcond
    rw [h1]
    have h2 : step o
        { c with
          current := .shouldCorrectChoice,
          vars := { c.vars with score := upScore (o.evalOut c.nEval).score, feedback := (o.evalOut c.nEval).feedback, usage := some (o.evalOut c.nEval).usage, shouldCorrectV := decide ((upScore (o.evalOut c.nEval).score = "POOR" ∨ upScore (o.evalOut c.nEval).score = "FAIR") ∧ c.vars.correctionCount < c.vars.maxCorrections) },
          stepCount := c.stepCount + 1, nEval := c.nEval + 1, nCorrect := c.nCorrect } =
        { c with
          current := .updateStatusCompleted,
          vars := { c.vars with score := upScore (o.evalOut c.nEval).score, feedback := (o.evalOut c.nEval).feedback, usage := some (o.evalOut c.nEval).usage, shouldCorrectV := decide ((upScore (o.evalOut c.nEval).score = "POOR" ∨ upScore (o.evalOut c.nEval).score = "FAIR") ∧ c.vars.correctionCount < c.vars.maxCorrections) },
          stepCount := c.stepCount + 2, nEval := c.nEval + 1, nCorrect := c.nCorrect } := by
      simp [step, hcond]
    rw [h2]
    refine ⟨rfl, fun hf2 => ?_⟩
    constructor
    · simp [step, hf2]
    · simp [step, hf2]

/-- Claim C10: a successful UpdateStatusFailed invocation appends the FAILED
write whose usage payload is the one-element list holding the pending usage
when it is set and the empty list otherwise. -/
theorem failed_write_includes_pending_usage (o : Oracle) (c : Config)
    (hc : c.current = .updateStatusFailed)
    (hf : o.failAt c.stepCount = false) :
    (step o c).current = .failState
    ∧ (step o c).writes = c.writes ++
      [{ jobId := c.vars.jobId, status := Status.FAILED, state := none, usage := failedUsagePayload c.vars.usage, score := none, prescriptionData := none, message := none, error := some { message := c.vars.errorMessage, code := c.vars.errorCode } }]
    ∧ (∀ u, c.vars.usage = some u → failedUsagePayload c.vars.usage = [some u])
    ∧ (c.vars.usage = none → failedUsagePayload c.vars.usage = []) := by
  refine ⟨by simp [step, hc, hf], by simp [step, hc, hf], ?_, ?_⟩
  · intro u hu
    simp [failedUsagePayload, hu]
  · intro hu
    simp [failedUsagePayload, hu]

/-- Claim C4: when Extract reports isPrescription false on a fault-free
execution, the job ends in the Fail state with a single FAILED terminal
write carrying code InvalidImage, and the Evaluate and Correct stages are
never invoked. -/
theorem invalid_image_fails (o : Oracle) (n : Nat)
    (hpres : o.extractOut.isPrescriptionO = false)
    (hff : ∀ k, o.failAt k = false)
    (hn : 8 ≤ n) :
    (run o n initConfig).current = .failState
    ∧ (run o n initConfig).nEval = 0
    ∧ (run o n initConfig).nCorrect = 0
    ∧ terminalWrites (run o n initConfig) =
      [{ jobId := o.input.jobId, status := Status.FAILED, state := none, usage := [some o.extractOut.usage], score := none, prescriptionData := none, message := none, error := some { message := some "The image does not contain a prescription.", code := some "InvalidImage" } }] := by
  have h8 : (run o 8 initConfig).current = .failState
      ∧ (run o 8 initConfig).nEval = 0
      ∧ (run o 8 initConfig).nCorrect = 0
      ∧ terminalWrites (run o 8 initConfig) =
        [{ jobId := o.input.jobId, status := Status.FAILED, state := none, usage := [some o.extractOut.usage], score := none, prescriptionData := none, message := none, error := some { message := some "The image does not contain a prescription.", code := some "InvalidImage" } }] := by
    rcases hut : o.input.useTextract with _ | b
    · refine ⟨?_, ?_, ?_, ?_⟩ <;>
        simp [show (8 : Nat) = 7 + 1 from rfl, run_succ, run, step, initConfig,
          initVars, hut, hff, hpres, terminalWrites, isTerminalWrite,
          failedUsagePayload]
    · cases b
      · refine ⟨?_, ?_, ?_, ?_⟩ <;>
          simp [show (8 : Nat) = 7 + 1 from rfl, run_succ, run, step, initConfig,
            initVars, hut, hff, hpres, terminalWrites, isTerminalWrite,
          failedUsagePayload]
      · refine ⟨?_, ?_, ?_, ?_⟩ <;>
          simp [show (8 : Nat) = 7 + 1 from rfl, run_succ, run, step, initConfig,
            initVars, hut, hff, hpres, terminalWrites, isTerminalWrite,
          failedUsagePayload]
  have habs : run o n initConfig = run o 8 initConfig :=
    run_absorb o 8 n hn (Or.inr (Or.inl h8.1))
  rw [habs]
  exact h8

/-- Claim C7: every stage or update task with a catch routes its exhausted
failure to the CatchHandler; from there the machine makes exactly one FAILED
terminal write with the stable InternalError pair (when that write, itself
retried under the generic policy, succeeds) and ends in the Fail state. -/
theorem unrecoverable_error_internal (o : Oracle) (n : Nat)
    (hc : (run o n initConfig).current = .catchHandler)
    (hw : o.failAt ((run o n initConfig).stepCount + 1) = false) :
    (∀ (o2 : Oracle) (c2 : Config), hasCatchToFailure c2.current = true →
      o2.failAt c2.stepCount = true → (step o2 c2).current = .catchHandler)
    ∧ (step o (step o (run o n initConfig))).current = .failState
    ∧ terminalWrites (step o (step o (run o n initConfig))) =
      [{ jobId := (run o n initConfig).vars.jobId, status := Status.FAILED, state := none, usage := failedUsagePayload (run o n initConfig).vars.usage, score := none, prescriptionData := none, message := none, error := some { message := some "Internal error", code := some "InternalError" } }]
    ∧ stateRetries .updateStatusFailed = [allErrorsRetryProps] := by
  have hK : List.filter isTerminalWrite (run o n initConfig).writes = [] :=
    (machineInv_run o n).termEmpty (by simp [hc]) (by simp [hc])
  have h1 : step o (run o n initConfig) =
      { run o n initConfig with
        current := .updateStatusFailed,
        vars := { (run o n initConfig).vars with errorMessage := some "Internal error", errorCode := some "InternalError" },
        stepCount := (run o n initConfig).stepCount + 1,
        nEval := (run o n initConfig).nEval, nCorrect := (run o n initConfig).nCorrect } := by
    simp [step, hc]
  refine ⟨?_, ?_, ?_, rfl⟩
  · intro o2 c2 hcc hfa
    cases hc2 : c2.current <;> simp [hasCatchToFailure, hc2] at hcc <;>
      simp [step, hc2, hfa]
  · rw [h1]
    simp [step, hw]
  · rw [h1]
    simp [step, hw, terminalWrites, List.filter_append, hK, isTerminalWrite]

/-- Claim C8: on fault-free executions the usage entries written to the
JobStore, together with the pending usage variable, are exactly the usage
payloads of the stage invocations made so far, in order and each exactly
once; moreover every usage-carrying status update writes the pending usage
and then resets it to null. -/
theorem usage_recorded_exactly_once (o : Oracle) (n : Nat)
    (hff : ∀ k, o.failAt k = false) :
    (writtenUsages (run o n initConfig) ++
      (if (run o n initConfig).current = .failState then []
        else optUsageList (run o n initConfig).vars.usage) =
      expectedUsage o (run o n initConfig))
    ∧ (∀ (o2 : Oracle) (c2 : Config),
        (c2.current = .updateStatusJudge ∨ c2.current = .updateStatusCorrect ∨
          c2.current = .updateStatusCompleted) →
        o2.failAt c2.stepCount = false →
        (step o2 c2).vars.usage = none
        ∧ ∃ w, (step o2 c2).writes = c2.writes ++ [w] ∧ w.usage = [c2.vars.usage]) := by
  refine ⟨(usageInv_run o hff n).2.2, ?_⟩
  intro o2 c2 hc2 hf2
  rcases hc2 with hc2 | hc2 | hc2
  · exact ⟨by simp [step, hc2, hf2],
      ⟨{ jobId := c2.vars.jobId, status := Status.PROCESSING, state := some JobState.JUDGE, usage := [c2.vars.usage], score := none, prescriptionData := none, message := none, error := none },
        by simp [step, hc2, hf2], rfl⟩⟩
  · exact ⟨by simp [step, hc2, hf2],
      ⟨{ jobId := c2.vars.jobId, status := Status.PROCESSING, state := some JobState.CORRECT, usage := [c2.vars.usage], score := some c2.vars.score, prescriptionData := none, message := none, error := none },
        by simp [step, hc2, hf2], rfl⟩⟩
  · exact ⟨by simp [step, hc2, hf2],
      ⟨{ jobId := c2.vars.jobId, status := Status.COMPLETED, state := none, usage := [c2.vars.usage], score := some c2.vars.score, prescriptionData := some c2.vars.extraction, message := some c2.vars.feedback, error := none },
        by simp [step, hc2, hf2], rfl⟩⟩

/-- Claim C9: under Cognito user-pool authentication the resolver returns a
record only when its owner equals the caller username, answers unauthorized
whenever a stored record has a different owner, and raises NotFound when no
record exists instead of returning an empty result. -/
theorem getJobStatus_owner_enforced (ctx : ResolverCtx)
    (hIss : truthyS ctx.identity.issuer = true)
    (hUser : truthyS ctx.identity.username = true) :
    (∀ r, getJobStatusResponse ctx = .ok r →
      ctx.result = some r ∧ r.owner = ctx.identity.username)
    ∧ (∀ r, ctx.result = some r → r.owner ≠ ctx.identity.username →
      getJobStatusResponse ctx = .unauthorized)
    ∧ (ctx.result = none → ctx.error = none →
      getJobStatusResponse ctx = .errored "Job not found" "NotFound") := by
  refine ⟨?_, ?_, ?_⟩
  · intro r hr
    simp only [getJobStatusResponse, hIss, hUser, if_true, Bool.not_true,
      Bool.false_eq_true, if_false] at hr
    by_cases hm : ownerMismatch ctx = true
    · simp [hm] at hr
    · simp only [hm] at hr
      simp only [Bool.not_eq_true] at hm
      rw [if_neg (by simp [hm])] at hr
      unfold responseTail at hr
      rcases he : ctx.error with _ | e
      · rw [he] at hr
        rcases hres : ctx.result with _ | r2
        · rw [hres] at hr
          simp at hr
        · rw [hres] at hr
          simp only [ResolverOutcome.ok.injEq] at hr
          subst hr
          refine ⟨rfl, ?_⟩
          unfold ownerMismatch at hm
          rw [hres] at hm
          simpa using hm
      · rw [he] at hr
        simp at hr
  · intro r hres hmis
    have hm : ownerMismatch ctx = true := by
      unfold ownerMismatch
      rw [hres]
      simpa using hmis
    simp [getJobStatusResponse, hIss, hUser, hm]
  · intro hres he
    have hm : ownerMismatch ctx = false := by
      unfold ownerMismatch
      rw [hres]
    simp [getJobStatusResponse, hIss, hUser, hm, responseTail, hres, he]

/-- Claim C6 counterexample: the OCR stage task declares only the generic
States.ALL retry, not the composed pair with the RateLimitError policy. -/
theorem retry_policies_cex : ¬ composedRetryClaim := by
  intro hcl
  have := hcl .ocrPrescription rfl
  simp [stateRetries, rateLimitRetryProps, allErrorsRetryProps] at this

/-- Claim C6 amended: the three model stages compose the RateLimitError
policy (3 attempts, delays 30, 60, 60 seconds: doubling from 30 and capped
at 60) with the generic States.ALL policy (3 attempts, no declared delay),
the OCR stage declares only the generic policy, and a stage invocation that
still fails moves to the CatchHandler, the terminal failure route. -/
theorem retry_policies_composed :
    (stateRetries .extractPrescription = [rateLimitRetryProps, allErrorsRetryProps]
      ∧ stateRetries .evaluateResponse = [rateLimitRetryProps, allErrorsRetryProps]
      ∧ stateRetries .correctResponse = [rateLimitRetryProps, allErrorsRetryProps]
      ∧ stateRetries .ocrPrescription = [allErrorsRetryProps])
    ∧ (rateLimitRetryProps.errors = ["RateLimitError"]
      ∧ rateLimitRetryProps.maxAttempts = 3
      ∧ backoffDelay 30 2 (some 60) 0 = 30
      ∧ (∀ k, backoffDelay 30 2 (some 60) (k + 1) =
          min (2 * backoffDelay 30 2 (some 60) k) 60)
      ∧ (∀ k, backoffDelay 30 2 (some 60) k ≤ 60))
    ∧ (allErrorsRetryProps.errors = ["States.ALL"]
      ∧ allErrorsRetryProps.maxAttempts = 3
      ∧ allErrorsRetryProps.interval = none
      ∧ allErrorsRetryProps.backoffRate = none)
    ∧ (∀ (o : Oracle) (c : Config), isStageState c.current = true →
      o.failAt c.stepCount = true → (step o c).current = .catchHandler) := by
  refine ⟨⟨rfl, rfl, rfl, rfl⟩, ⟨rfl, rfl, rfl, ?_, ?_⟩, ⟨rfl, rfl, rfl, rfl⟩, ?_⟩
  · intro k
    simp only [backoffDelay, pow_succ]
    have h2 : 30 * (2 ^ k * 2) = 2 * (30 * 2 ^ k) := by ring
    rw [h2]
    omega
  · intro k
    simp [backoffDelay]
  · intro o c hcc hfa
    cases hc2 : c.current <;> simp [isStageState, hc2] at hcc <;>
      simp [step, hc2, hfa]

theorem correction_loop_bounded_witness :
    (run sampleOracle 30 initConfig).vars.correctionCount ≤ resolvedMaxCorrections sampleOracle
    ∧ ((run sampleOracle 30 initConfig).nCorrect : Int) ≤ resolvedMaxCorrections sampleOracle
    ∧ (resolvedMaxCorrections sampleOracle = 0 →
      (run sampleOracle 30 initConfig).nCorrect = 0 ∧
      countStateWrites .CORRECT (run sampleOracle 30 initConfig) = 0) :=
  correction_loop_bounded sampleOracle 30 (by decide)

theorem evaluate_dispatch_iff_witness :
    (step sampleOracle evalProbeConfig).current = .shouldCorrectChoice
    ∧ ((step sampleOracle (step sampleOracle evalProbeConfig)).current = .updateStatusCorrect ↔
        ((upScore (sampleOracle.evalOut evalProbeConfig.nEval).score = "POOR" ∨
          upScore (sampleOracle.evalOut evalProbeConfig.nEval).score = "FAIR")
          ∧ evalProbeConfig.vars.correctionCount < evalProbeConfig.vars.maxCorrections))
    ∧ (¬ ((upScore (sampleOracle.evalOut evalProbeConfig.nEval).score = "POOR" ∨
          upScore (sampleOracle.evalOut evalProbeConfig.nEval).score = "FAIR")
          ∧ evalProbeConfig.vars.correctionCount < evalProbeConfig.vars.maxCorrections) →
        (step sampleOracle (step sampleOracle evalProbeConfig)).current = .updateStatusCompleted
        ∧ (sampleOracle.failAt (evalProbeConfig.stepCount + 2) = false →
          (step sampleOracle (step sampleOracle (step sampleOracle evalProbeConfig))).current = .success
          ∧ (step sampleOracle (step sampleOracle (step sampleOracle evalProbeConfig))).writes = evalProbeConfig.writes ++
            [{ jobId := evalProbeConfig.vars.jobId, status := Status.COMPLETED, state := none, usage := [some (sampleOracle.evalOut evalProbeConfig.nEval).usage], score := some (upScore (sampleOracle.evalOut evalProbeConfig.nEval).score), prescriptionData := some evalProbeConfig.vars.extraction, message := some (sampleOracle.evalOut evalProbeConfig.nEval).feedback, error := none }])) :=
  evaluate_dispatch_iff sampleOracle evalProbeConfig rfl rfl

theorem invalid_image_fails_witness :
    (run invalidImageOracle 9 initConfig).current = .failState
    ∧ (run invalidImageOracle 9 initConfig).nEval = 0
    ∧ (run invalidImageOracle 9 initConfig).nCorrect = 0
    ∧ terminalWrites (run invalidImageOracle 9 initConfig) =
      [{ jobId := invalidImageOracle.input.jobId, status := Status.FAILED, state := none, usage := [some invalidImageOracle.extractOut.usage], score := none, prescriptionData := none, message := none, error := some { message := some "The image does not contain a prescription.", code := some "InvalidImage" } }] :=
  invalid_image_fails invalidImageOracle 9 rfl (fun _ => rfl) (by omega)

theorem unrecoverable_error_internal_witness :
    (∀ (o2 : Oracle) (c2 : Config), hasCatchToFailure c2.current = true →
      o2.failAt c2.stepCount = true → (step o2 c2).current = .catchHandler)
    ∧ (step failingExtractOracle (step failingExtractOracle (run failingExtractOracle 4 initConfig))).current = .failState
    ∧ terminalWrites (step failingExtractOracle (step failingExtractOracle (run failingExtractOracle 4 initConfig))) =
      [{ jobId := (run failingExtractOracle 4 initConfig).vars.jobId, status := Status.FAILED, state := none, usage := failedUsagePayload (run failingExtractOracle 4 initConfig).vars.usage, score := none, prescriptionData := none, message := none, error := some { message := some "Internal error", code := some "InternalError" } }]
    ∧ stateRetries .updateStatusFailed = [allErrorsRetryProps] :=
  unrecoverable_error_internal failingExtractOracle 4 (by decide) (by decide)

theorem usage_recorded_exactly_once_witness :
    (writtenUsages (run sampleOracle 30 initConfig) ++
      (if (run sampleOracle 30 initConfig).current = .failState then []
        else optUsageList (run sampleOracle 30 initConfig).vars.usage) =
      expectedUsage sampleOracle (run sampleOracle 30 initConfig))
    ∧ (∀ (o2 : Oracle) (c2 : Config),
        (c2.current = .updateStatusJudge ∨ c2.current = .updateStatusCorrect ∨
          c2.current = .updateStatusCompleted) →
        o2.failAt c2.stepCount = false →
        (step o2 c2).vars.usage = none
        ∧ ∃ w, (step o2 c2).writes = c2.writes ++ [w] ∧ w.usage = [c2.vars.usage]) :=
  usage_recorded_exactly_once sampleOracle 30 (fun _ => rfl)

theorem getJobStatus_owner_enforced_witness :
    (∀ r, getJobStatusResponse sampleCtx = .ok r →
      sampleCtx.result = some r ∧ r.owner = sampleCtx.identity.username)
    ∧ (∀ r, sampleCtx.result = some r → r.owner ≠ sampleCtx.identity.username →
      getJobStatusResponse sampleCtx = .unauthorized)
    ∧ (sampleCtx.result = none → sampleCtx.error = none →
      getJobStatusResponse sampleCtx = .errored "Job not found" "NotFound") :=
  getJobStatus_owner_enforced sampleCtx rfl rfl

theorem failed_write_includes_pending_usage_witness :
    (step sampleOracle failedProbeConfig).current = .failState
    ∧ (step sampleOracle failedProbeConfig).writes = failedProbeConfig.writes ++
      [{ jobId := failedProbeConfig.vars.jobId, status := Status.FAILED, state := none, usage := failedUsagePayload failedProbeConfig.vars.usage, score := none, prescriptionData := none, message := none, error := some { message := failedProbeConfig.vars.errorMessage, code := failedProbeConfig.vars.errorCode } }]
    ∧ (∀ u, failedProbeConfig.vars.usage = some u →
      failedUsagePayload failedProbeConfig.vars.usage = [some u])
    ∧ (failedProbeConfig.vars.usage = none →
      failedUsagePayload failedProbeConfig.vars.usage = []) :=
  failed_write_includes_pending_usage sampleOracle failedProbeConfig rfl rfl

end SmartPrescriptionReader
